import Mathlib

/-!
# oneNETDevice: device session engine

A shallow embedding of the Go sources `data_handler.go` and `client_config.go`.

* Go values of type `interface{}` that travel through `encoding/json` are embedded as
  the tree type `JVal`; a Go map is an association list in iteration order.
* Side effects on the MQTT client are embedded as the list of messages handed to
  `Client.Publish`, in call order; what the broker answers is an explicit input.
* `time.Now()` and `math/rand` are explicit inputs of the functions that read them.
-/

namespace OneNET

/-! ## Values -/

/-- Go `interface{}` values as they are decoded from, or encoded to, JSON.
A number is kept by its integer value: every `int32`, `int` and `int64` the program
encodes is one, and so is every `float64` the decoder yields for an integral JSON
number; JSON numbers with a fractional part are not represented.  An object is a Go
map, listed in iteration order. -/
inductive JVal where
  | null : JVal
  | bool (b : Bool) : JVal
  | num (n : Int) : JVal
  | str (s : String) : JVal
  | arr (xs : List JVal) : JVal
  | obj (kvs : List (String × JVal)) : JVal

/-- A Go `map[string]interface{}` in iteration order. -/
abbrev GoMap := List (String × JVal)

/-- Map index expression `m[k]` in its two-result form. -/
def GoMap.get? (m : GoMap) (k : String) : Option JVal :=
  match m with
  | [] => none
  | (k1, v) :: rest => if k1 = k then some v else GoMap.get? rest k

/-- Map index expression `m[k]`, the `nil` interface when the key is absent. -/
def GoMap.get (m : GoMap) (k : String) : JVal :=
  (m.get? k).getD JVal.null

/-- Map assignment `m[k] = v`. -/
def GoMap.set (m : GoMap) (k : String) (v : JVal) : GoMap :=
  match m with
  | [] => [(k, v)]
  | (k1, v1) :: rest => if k1 = k then (k1, v) :: rest else (k1, v1) :: GoMap.set rest k v

/-- The keys of a map, in iteration order. -/
def GoMap.keys (m : GoMap) : List String := m.map Prod.fst

/-- Conversion `int32(val)` of a `float64` holding an integral value: the value itself
inside the `int32` range.  Outside of it Go leaves the result to the implementation;
the low 32 bits in two's complement are taken here, and no statement below depends on
that choice. -/
def toInt32 (val : Int) : Int :=
  (val + 2147483648) % 4294967296 - 2147483648

/-! ## Device state -/

/-- The `Device` struct without its MQTT client.  `controlChan` is the content of the
channel made by `make(chan int32, 1)`: at most one pending value. -/
structure Device where
  Name : String
  OUT : Int
  Interval : Int
  Relay : Int
  StaticProps : GoMap
  controlChan : Option Int

/-- One call of `Client.Publish(topic, 1, false, payload)`; the payload is the value
handed to `json.Marshal`. -/
structure Publish where
  topic : String
  payload : JVal

/-! ## Topics -/

/-- Scan of `strings.ReplaceAll` for a non-empty `old`: `skip` counts the characters of
a match that are still to be passed over. -/
def replaceAllAux (old new : List Char) : Nat → List Char → List Char
  | _, [] => []
  | skip + 1, _ :: cs => replaceAllAux old new skip cs
  | 0, c :: cs =>
    if old.isPrefixOf (c :: cs) then new ++ replaceAllAux old new (old.length - 1) cs
    else c :: replaceAllAux old new 0 cs

/-- Go `strings.ReplaceAll(s, old, new)`: the non-overlapping occurrences of `old`,
taken from the left, are replaced by `new`; an empty `old` matches before every
character and at the end. -/
def replaceAll (s old new : List Char) : List Char :=
  if old = [] then new ++ (s.map (fun c => c :: new)).flatten
  else replaceAllAux old new 0 s

/-- Constant `ProductID` of `client_config.go`. -/
def ProductID : String := ""

/-- Literal product placeholder of the topic templates. -/
def productPlaceholder : String := "5S34OM4Rc6"

/-- Literal device placeholder of the topic templates. -/
def devicePlaceholder : String := "\x7bdevice-name\x7d"

def PropertyPostTopicTemplate : String := "$sys/5S34OM4Rc6/\x7bdevice-name\x7d/thing/property/post"
def EventPostTopicTemplate : String := "$sys/5S34OM4Rc6/\x7bdevice-name\x7d/thing/event/post"
def PropertySetReplyTopicTemplate : String :=
  "$sys/5S34OM4Rc6/\x7bdevice-name\x7d/thing/property/set_reply"
def PropertyGetReplyTopicTemplate : String :=
  "$sys/5S34OM4Rc6/\x7bdevice-name\x7d/thing/property/get_reply"
def PackPostTopicTemplate : String := "$sys/5S34OM4Rc6/\x7bdevice-name\x7d/thing/pack/post"
def PropertyPostReplyTopicTemplate : String :=
  "$sys/5S34OM4Rc6/\x7bdevice-name\x7d/thing/property/post/reply"
def EventPostReplyTopicTemplate : String :=
  "$sys/5S34OM4Rc6/\x7bdevice-name\x7d/thing/event/post/reply"
def PackPostReplyTopicTemplate : String := "$sys/5S34OM4Rc6/\x7bdevice-name\x7d/thing/pack/post/reply"
def PropertySetTopicTemplate : String := "$sys/5S34OM4Rc6/\x7bdevice-name\x7d/thing/property/set"
def PropertyGetTopicTemplate : String := "$sys/5S34OM4Rc6/\x7bdevice-name\x7d/thing/property/get"

/-- The ten topic templates of `data_handler.go`, publish direction first. -/
def canonicalTemplates : List String :=
  [PropertyPostTopicTemplate, EventPostTopicTemplate, PropertySetReplyTopicTemplate,
   PropertyGetReplyTopicTemplate, PackPostTopicTemplate, PropertyPostReplyTopicTemplate,
   EventPostReplyTopicTemplate, PackPostReplyTopicTemplate, PropertySetTopicTemplate,
   PropertyGetTopicTemplate]

/-- Body of `getTopic` with the package constant `ProductID` as an argument. -/
def getTopicWith (productID deviceName template : String) : String :=
  let s := replaceAll template.toList productPlaceholder.toList productID.toList
  String.mk (replaceAll s devicePlaceholder.toList deviceName.toList)

/-- Go `strings.Contains(s, sub)`: `sub` occurs in `s` as a contiguous run. -/
def Contains (s sub : String) : Prop := sub.toList <:+: s.toList

instance (s sub : String) : Decidable (Contains s sub) := by
  unfold Contains
  infer_instance

/-- Function `getTopic` of `data_handler.go`. -/
def getTopic (deviceName template : String) : String :=
  getTopicWith ProductID deviceName template

/-! ## Property snapshots -/

/-- Helper `wrapValue`: the envelope `{"value": data}`. -/
def wrapValue (data : JVal) : JVal := JVal.obj [("value", data)]

/-- The five values `generateRawStaticProperties` reads from `rand.Int31n`, before the
reduction to the requested range. -/
structure StaticRand where
  imsi : Nat
  lac : Nat
  cid : Nat
  ss : Nat
  wifi : Nat

/-- Method `generateRawStaticProperties`; `rand.Int31n(n)` is the draw modulo `n`. -/
def generateRawStaticProperties (r : StaticRand) : GoMap :=
  [("imsi", JVal.str ("46000" ++ toString (r.imsi % 999999999))),
   ("cell_info", JVal.arr
      [JVal.str ("LAC:" ++ toString (1024 + r.lac % 10)),
       JVal.str ("CID:" ++ toString (2048 + r.cid % 100))]),
   ("macs", JVal.arr [JVal.str "AA:BB:CC:DD:EE:FF", JVal.str "11:22:33:44:55:66"]),
   ("$OneNET_LBS", JVal.arr
      [JVal.obj
        [("mnc", JVal.num 1), ("mcc", JVal.num 460), ("lac", JVal.num 1024),
         ("cid", JVal.num 2048), ("networkType", JVal.num 2),
         ("ss", JVal.num (80 + (r.ss % 20 : Nat))), ("signalLength", JVal.num 100),
         ("ta", JVal.num 1), ("flag", JVal.num 1)]]),
   ("$OneNET_LBS_WIFI", JVal.obj
      [("imsi", JVal.str ("WIFI_IMSI_" ++ toString (r.wifi % 1000))),
       ("serverip", JVal.str ""), ("macs", JVal.str ""), ("mmac", JVal.str ""),
       ("smac", JVal.str ""), ("idfa", JVal.str "")])]

/-- Method `generateRawDynamicProperties`; `rTemp` and `rCsq` are the two draws. -/
def generateRawDynamicProperties (d : Device) (rTemp rCsq : Nat) : GoMap :=
  [("temperature", JVal.num ((rTemp % 40 : Nat) + 10)),
   ("csq", JVal.num (rCsq % 31 : Nat)),
   ("OUT", JVal.num d.OUT),
   ("relay", JVal.num d.Relay),
   ("interval", JVal.num d.Interval)]

/-- The loop `for k, v := range rawProps { wrappedProps[k] = wrapValue(v) }` into an
empty map. -/
def wrapAll (rawProps : GoMap) : GoMap :=
  rawProps.foldl (fun wrappedProps kv => wrappedProps.set kv.1 (wrapValue kv.2)) []

/-- Method `generateStaticProperties`. -/
def generateStaticProperties (r : StaticRand) : GoMap :=
  wrapAll (generateRawStaticProperties r)

/-- Method `generateDynamicProperties`. -/
def generateDynamicProperties (d : Device) (rTemp rCsq : Nat) : GoMap :=
  wrapAll (generateRawDynamicProperties d rTemp rCsq)

/-- Function `initDeviceState`. -/
def initDeviceState (deviceName : String) (r : StaticRand) : Device :=
  { Name := deviceName, OUT := 0, Relay := 0, Interval := 10,
    StaticProps := generateStaticProperties r, controlChan := none }

/-- The loop `for k, v := range src { dst[k] = v }`. -/
def copyInto (dst src : GoMap) : GoMap :=
  src.foldl (fun acc kv => acc.set kv.1 kv.2) dst

/-- The `params` map that `postDeviceProperty` builds. -/
def propertyParams (d : Device) (isFullReport : Bool) (rTemp rCsq : Nat) : GoMap :=
  if isFullReport then
    copyInto (copyInto [] d.StaticProps) (generateDynamicProperties d rTemp rCsq)
  else
    (generateDynamicProperties d rTemp rCsq).set "relay" (wrapValue (JVal.num d.Relay))

/-- Method `postDeviceProperty`: the message it publishes.  `nowMs` is
`time.Now().UnixNano()/1000000`. -/
def postDeviceProperty (d : Device) (isFullReport : Bool) (nowMs : Int)
    (rTemp rCsq : Nat) : Publish :=
  { topic := getTopic d.Name PropertyPostTopicTemplate,
    payload := JVal.obj
      [("id", JVal.str (toString nowMs)),
       ("version", JVal.str "1.0"),
       ("params", JVal.obj (propertyParams d isFullReport rTemp rCsq))] }

/-! ## Event reports -/

/-- Type `EventReportFormat`. -/
inductive EventReportFormat where
  | FormatDirect : EventReportFormat
  | FormatWrapped : EventReportFormat
  | FormatBatch : EventReportFormat
  deriving DecidableEq

/-- Initial value of the package variable `CurrentEventFormat`. -/
def CurrentEventFormat : EventReportFormat := EventReportFormat.FormatDirect

/-- The map `rawEventParams` of `postDeviceEvent`; `rAlarm` is the draw behind
`rand.Int31n(2)`. -/
def rawEventParams (rAlarm : Nat) : GoMap :=
  [("powerOff", JVal.num (rAlarm % 2 : Nat)),
   ("overcurrent", JVal.num 0),
   ("smoke", JVal.num 0),
   ("IN1", JVal.num 1),
   ("IN2", JVal.num 0)]

/-- Method `postDeviceEvent` under the event format `format`: the message it
publishes.  `nowMs` is `time.Now().UnixNano()/1000000`, `nowSec` is `time.Now().Unix()`. -/
def postDeviceEvent (d : Device) (eventID : String) (format : EventReportFormat)
    (nowMs nowSec : Int) (rAlarm : Nat) : Publish :=
  let msgID := toString nowMs
  match format with
  | EventReportFormat.FormatDirect =>
    let wrappedEventData : GoMap := [("value", JVal.obj (rawEventParams rAlarm))]
    let nestedParams : GoMap := [(eventID, JVal.obj wrappedEventData)]
    { topic := getTopic d.Name EventPostTopicTemplate,
      payload := JVal.obj
        [("id", JVal.str msgID), ("version", JVal.str "1.0"),
         ("params", JVal.obj nestedParams)] }
  | EventReportFormat.FormatWrapped =>
    { topic := getTopic d.Name EventPostTopicTemplate,
      payload := JVal.obj
        [("id", JVal.str msgID), ("version", JVal.str "1.0"),
         ("params", JVal.obj (wrapAll (rawEventParams rAlarm)))] }
  | EventReportFormat.FormatBatch =>
    let event : GoMap :=
      [("identifier", JVal.str "alarm"),
       ("params", JVal.obj (rawEventParams rAlarm)),
       ("time", JVal.num nowSec)]
    { topic := getTopic d.Name PackPostTopicTemplate,
      payload := JVal.obj
        [("id", JVal.str msgID), ("version", JVal.str "1.0"),
         ("params", JVal.obj
            [("properties", JVal.obj []),
             ("events", JVal.arr [JVal.obj event])])] }

/-! ## Property set -/

/-- Outcome of `json.Unmarshal(payload, &req)` for `req` of type
`map[string]interface{}`.  The argument is the payload read as a JSON text, `none`
when it is not one.  An object fills the map, `null` leaves it `nil` without an
error, every other value is a type error. -/
def unmarshalMap (payload : Option JVal) : Option GoMap :=
  match payload with
  | some (JVal.obj kvs) => some kvs
  | some JVal.null => some []
  | _ => none

/-- The statement `select { case d.controlChan <- v: default: }`: the value is stored
when the channel has room and dropped otherwise. -/
def trySend (ch : Option Int) (v : Int) : Option Int :=
  match ch with
  | none => some v
  | some pending => some pending

/-- Body of the loop `for k, v := range params` of `handlePropertySet`. -/
def setProperty (d : Device) (kv : String × JVal) : Device :=
  match kv.2 with
  | JVal.num val =>
    let intValue := toInt32 val
    if kv.1 = "OUT" then { d with OUT := intValue }
    else if kv.1 = "relay" then { d with Relay := intValue }
    else if kv.1 = "interval" then
      { d with Interval := intValue, controlChan := trySend d.controlChan intValue }
    else d
  | _ => d

/-- The reply `handlePropertySet` publishes. -/
def setReply (d : Device) (msgID : JVal) : Publish :=
  { topic := getTopic d.Name PropertySetReplyTopicTemplate,
    payload := JVal.obj
      [("id", msgID), ("version", JVal.str "1.0"), ("code", JVal.num 200),
       ("msg", JVal.str "success")] }

/-- Method `handlePropertySet`: the device afterwards and the messages published, in
order.  `replyOk` tells that the token of the reply publish carries no error; `nowMs`,
`rTemp` and `rCsq` are read by the property report. -/
def handlePropertySet (d : Device) (payload : Option JVal) (replyOk : Bool) (nowMs : Int)
    (rTemp rCsq : Nat) : Device × List Publish :=
  match unmarshalMap payload with
  | none => (d, [])
  | some req =>
    let msgID := req.get "id"
    match req.get? "params" with
    | some (JVal.obj params) =>
      let d1 := params.foldl setProperty d
      let reply := setReply d1 msgID
      if replyOk then (d1, [reply, postDeviceProperty d1 false nowMs rTemp rCsq])
      else (d1, [reply])
    | _ => (d, [])

/-- The receive `newInterval := <-d.controlChan` of `runRunner`, when a value is
pending: the value received and the channel left empty. -/
def recvControl (d : Device) : Option (Int × Device) :=
  match d.controlChan with
  | none => none
  | some v => some (v, { d with controlChan := none })

/-! ## Reference behaviour of a property set, after the specification -/

/-- The `params` object of a property-set payload: present when the payload is valid
JSON with a `params` field that is an object. -/
def specParams (payload : Option JVal) : Option GoMap :=
  match payload with
  | some (JVal.obj req) =>
    match GoMap.get? req "params" with
    | some (JVal.obj params) => some params
    | _ => none
  | _ => none

/-- The value of one writable attribute after a property set: the value given under
`name` when that is a number, the old value when `name` is absent or not a number. -/
def specField (params : GoMap) (name : String) (old : Int) : Int :=
  match params.get? name with
  | some (JVal.num v) => v
  | _ => old

/-- The device attributes after a property set: untouched without a `params` object,
otherwise `OUT`, `relay` and `interval` are written to their attributes and nothing
else is. -/
def specPropertySet (d : Device) (payload : Option JVal) : Device :=
  match specParams payload with
  | none => d
  | some params =>
    { d with
      OUT := specField params "OUT" d.OUT
      Relay := specField params "relay" d.Relay
      Interval := specField params "interval" d.Interval }

/-- The `int32` range. -/
def InInt32 (v : Int) : Prop := -2147483648 ≤ v ∧ v ≤ 2147483647

/-- The three names `handlePropertySet` writes. -/
def writableNames : List String := ["OUT", "relay", "interval"]

/-- The property-set payloads in scope: the `params` object is a Go map, so its names
are pairwise distinct, and the numbers given for `OUT`, `relay` and `interval` are
integers of the `int32` range. -/
def SetInScope (payload : Option JVal) : Prop :=
  ∀ params, specParams payload = some params →
    params.keys.Nodup ∧
      ∀ k v, (k, JVal.num v) ∈ params → k ∈ writableNames → InInt32 v

/-- The property-set payload `{"params": {"interval": v}}`. -/
def intervalSet (v : Int) : Option JVal :=
  some (JVal.obj [("params", JVal.obj [("interval", JVal.num v)])])

/-! ## Reading payloads back -/

/-- Member `k` of a JSON object, `none` on any other value or when absent. -/
def JVal.field? (v : JVal) (k : String) : Option JVal :=
  match v with
  | JVal.obj kvs => GoMap.get? kvs k
  | _ => none

/-- The raw value inside an envelope `{"value": raw}`, `none` on any other value. -/
def unwrapValue (v : JVal) : Option JVal :=
  match v with
  | JVal.obj [("value", raw)] => some raw
  | _ => none

/-- Unwrapping every entry of a map of envelopes; `none` when an entry is not one. -/
def unwrapAll (m : GoMap) : Option GoMap :=
  match m with
  | [] => some []
  | (k, v) :: rest =>
    match unwrapValue v, unwrapAll rest with
    | some raw, some rest1 => some ((k, raw) :: rest1)
    | _, _ => none

/-- A device as it is after `initDeviceState` and any number of property sets: the
static snapshot is the one cached at creation, the attributes and the channel are
arbitrary. -/
def deviceWith (deviceName : String) (r : StaticRand) (out relay interval : Int)
    (ch : Option Int) : Device :=
  { initDeviceState deviceName r with
    OUT := out, Relay := relay, Interval := interval, controlChan := ch }

/-! ## Credential signer (`client_config.go`)

Go strings are byte sequences and the signer works on them bytewise, so this part is
embedded over lists of bytes. -/

/-- One byte of a Go string. -/
abbrev Byte := Fin 256

/-- A Go string, as its bytes. -/
abbrev Bytes := List Byte

/-- The bytes of an ASCII literal. -/
def ascii (s : String) : Bytes := s.toList.map (fun c => Fin.ofNat c.toNat)

/-- Digit `i` of the standard base64 alphabet `A-Z a-z 0-9 + /`. -/
def b64Char (i : Nat) : Byte :=
  if i < 26 then Fin.ofNat (65 + i)
  else if i < 52 then Fin.ofNat (97 + (i - 26))
  else if i < 62 then Fin.ofNat (48 + (i - 52))
  else if i = 62 then 43
  else 47

/-- Value of a character of the standard base64 alphabet. -/
def b64Val (c : Byte) : Option Nat :=
  if 65 ≤ c.val ∧ c.val ≤ 90 then some (c.val - 65)
  else if 97 ≤ c.val ∧ c.val ≤ 122 then some (c.val - 97 + 26)
  else if 48 ≤ c.val ∧ c.val ≤ 57 then some (c.val - 48 + 52)
  else if c.val = 43 then some 62
  else if c.val = 47 then some 63
  else none

/-- The padding character `=`. -/
def b64Pad : Byte := 61

/-- Go `base64.StdEncoding.EncodeToString`. -/
def base64Encode : Bytes → Bytes
  | [] => []
  | [a] => [b64Char (a.val / 4), b64Char (a.val % 4 * 16), b64Pad, b64Pad]
  | [a, b] =>
    [b64Char (a.val / 4), b64Char (a.val % 4 * 16 + b.val / 16),
     b64Char (b.val % 16 * 4), b64Pad]
  | a :: b :: c :: rest =>
    b64Char (a.val / 4) :: b64Char (a.val % 4 * 16 + b.val / 16) ::
      b64Char (b.val % 16 * 4 + c.val / 64) :: b64Char (c.val % 64) :: base64Encode rest

/-- Decoding of the quantums of a padded base64 text: four characters give three
bytes; the last quantum may end in one or two padding characters. -/
def b64Quantums : Bytes → Option Bytes
  | [] => some []
  | c0 :: c1 :: c2 :: c3 :: rest =>
    if rest = [] ∧ c3 = b64Pad then
      if c2 = b64Pad then
        match b64Val c0, b64Val c1 with
        | some v0, some v1 => some [Fin.ofNat (v0 * 4 + v1 / 16)]
        | _, _ => none
      else
        match b64Val c0, b64Val c1, b64Val c2 with
        | some v0, some v1, some v2 =>
          some [Fin.ofNat (v0 * 4 + v1 / 16), Fin.ofNat (v1 % 16 * 16 + v2 / 4)]
        | _, _, _ => none
    else
      match b64Val c0, b64Val c1, b64Val c2, b64Val c3, b64Quantums rest with
      | some v0, some v1, some v2, some v3, some tail =>
        some (Fin.ofNat (v0 * 4 + v1 / 16) :: Fin.ofNat (v1 % 16 * 16 + v2 / 4) ::
          Fin.ofNat (v2 % 4 * 64 + v3) :: tail)
      | _, _, _, _, _ => none
  | _ => none

/-- Go `base64.StdEncoding.DecodeString`: carriage returns and line feeds are skipped,
the rest must be padded base64; `none` is the `CorruptInputError`. -/
def base64Decode (s : Bytes) : Option Bytes :=
  b64Quantums (s.filter (fun c => c ≠ 13 ∧ c ≠ 10))

/-- Upper-case hexadecimal digit. -/
def hexDigit (n : Nat) : Byte :=
  if n < 10 then Fin.ofNat (48 + n) else Fin.ofNat (55 + n)

/-- Value of a hexadecimal digit of either case. -/
def hexVal (c : Byte) : Option Nat :=
  if 48 ≤ c.val ∧ c.val ≤ 57 then some (c.val - 48)
  else if 65 ≤ c.val ∧ c.val ≤ 70 then some (c.val - 55)
  else if 97 ≤ c.val ∧ c.val ≤ 102 then some (c.val - 87)
  else none

/-- The bytes `url.QueryEscape` leaves as they are: letters, digits, `-`, `_`, `.`, `~`. -/
def unreserved (c : Byte) : Bool :=
  (65 ≤ c.val && c.val ≤ 90) || (97 ≤ c.val && c.val ≤ 122) || (48 ≤ c.val && c.val ≤ 57)
    || c.val = 45 || c.val = 95 || c.val = 46 || c.val = 126

/-- Go `url.QueryEscape`, one byte. -/
def escapeByte (c : Byte) : Bytes :=
  if unreserved c then [c]
  else if c.val = 32 then [43]
  else [37, hexDigit (c.val / 16), hexDigit (c.val % 16)]

/-- Go `url.QueryEscape`. -/
def queryEscape (s : Bytes) : Bytes := (s.map escapeByte).flatten

/-- Go `url.QueryUnescape`: `%XX` is one byte, `+` is a space; `none` is the
`EscapeError`. -/
def queryUnescape : Bytes → Option Bytes
  | [] => some []
  | c :: rest =>
    if c.val = 37 then
      match rest with
      | h :: l :: rest2 =>
        match hexVal h, hexVal l, queryUnescape rest2 with
        | some vh, some vl, some tail => some (Fin.ofNat (vh * 16 + vl) :: tail)
        | _, _, _ => none
      | _ => none
    else
      match queryUnescape rest with
      | some tail => some ((if c.val = 43 then 32 else c) :: tail)
      | none => none

/-- The hash constructors `OneNET_Sign` chooses from. -/
inductive HashAlg where
  | md5 : HashAlg
  | sha1 : HashAlg
  | sha256 : HashAlg
  deriving DecidableEq

/-- Length in bytes of a digest: `md5.Size`, `sha1.Size`, `sha256.Size`. -/
def HashAlg.size : HashAlg → Nat
  | HashAlg.md5 => 16
  | HashAlg.sha1 => 20
  | HashAlg.sha256 => 32

/-- The standard library's `crypto/hmac`: `sum alg key msg` is what
`hmac.New(alg, key)` gives from `Sum(nil)` after `Write(msg)`.  It is a digest of the
chosen hash, so it has that hash's length; nothing else is assumed of it. -/
structure KeyedHash where
  sum : HashAlg → Bytes → Bytes → Bytes
  size_eq : ∀ alg key msg, (sum alg key msg).length = alg.size

/-- A keyed hash of the right sizes that is not a cryptographic one: the digest is the
key and the message, cut or filled with zeros to the digest length.  It serves to
evaluate the signer on concrete inputs. -/
def paddingHash : KeyedHash where
  sum := fun alg key msg =>
    (key ++ msg).take alg.size ++ List.replicate (alg.size - (key ++ msg).length) 0
  size_eq := by
    intro alg key msg
    simp only [List.length_append, List.length_take, List.length_replicate]
    omega

/-- The two errors of `OneNET_Sign`. -/
inductive SignError where
  | decodeKey : SignError
  | unsupportedMethod : SignError
  deriving DecidableEq

/-- Go `strings.ToLower` on the bytes that matter here: `A-Z` go to `a-z`. -/
def toLower (s : Bytes) : Bytes :=
  s.map (fun c => if 65 ≤ c.val ∧ c.val ≤ 90 then Fin.ofNat (c.val + 32) else c)

/-- The `switch strings.ToLower(method)` of `OneNET_Sign`. -/
def selectHash (method : Bytes) : Option HashAlg :=
  if toLower method = ascii "md5" then some HashAlg.md5
  else if toLower method = ascii "sha1" then some HashAlg.sha1
  else if toLower method = ascii "sha256" then some HashAlg.sha256
  else none

/-- Function `OneNET_Sign`: the signature and the error, `none` for `nil`. -/
def OneNET_Sign (H : KeyedHash) (key stringForSignature method : Bytes) :
    Bytes × Option SignError :=
  match base64Decode key with
  | none => ([], some SignError.decodeKey)
  | some rawKey =>
    match selectHash method with
    | none => ([], some SignError.unsupportedMethod)
    | some alg => (base64Encode (H.sum alg rawKey stringForSignature), none)

/-- Go `fmt.Sprintf("%d", n)`. -/
def formatInt (n : Int) : Bytes := ascii (toString n)

/-- Go `sort.Strings`: ascending in the bytewise lexicographic order. -/
def sortStrings (keys : List Bytes) : List Bytes :=
  keys.insertionSort (fun a b => a ≤ b)

/-- Go `strings.Join`. -/
def joinWith (sep : Bytes) : List Bytes → Bytes
  | [] => []
  | [a] => a
  | a :: b :: rest => a ++ sep ++ joinWith sep (b :: rest)

/-- Index expression `m[k]` on a `map[string]string`: the empty string when absent. -/
def lookupString (m : List (Bytes × Bytes)) (k : Bytes) : Bytes :=
  match m with
  | [] => []
  | (k1, v) :: rest => if k1 = k then v else lookupString rest k

/-- The resource path `products/<productID>/devices/<deviceName>`. -/
def resourcePath (productID deviceName : Bytes) : Bytes :=
  ascii "products/" ++ productID ++ ascii "/devices/" ++ deviceName

/-- The string that is signed: expiry, method, resource path and version, separated
by line feeds. -/
def stringForSignature (et : Int) (method res version : Bytes) : Bytes :=
  formatInt et ++ [10] ++ method ++ [10] ++ res ++ [10] ++ version

/-- Function `getOneNETToken`: the token and the error.  `now` is `time.Now()` in Unix
seconds and `ExpiryDuration` is one hour; `iter` is the order in which
`for k := range tokenParams` yields the five keys. -/
def getOneNETToken (H : KeyedHash) (now : Int) (iter : List Bytes)
    (productID deviceName accessKey method version : Bytes) : Bytes × Option SignError :=
  let res := resourcePath productID deviceName
  let et := now + 3600
  match OneNET_Sign H accessKey (stringForSignature et method res version) method with
  | (_, some err) => ([], some err)
  | (sign, none) =>
    let tokenParams : List (Bytes × Bytes) :=
      [(ascii "version", version), (ascii "res", res), (ascii "et", formatInt et),
       (ascii "method", method), (ascii "sign", sign)]
    let keys := sortStrings iter
    let encodedParams :=
      keys.map (fun k => k ++ ascii "=" ++ queryEscape (lookupString tokenParams k))
    (joinWith (ascii "&") encodedParams, none)

/-- The keys of `tokenParams`, as the map literal lists them. -/
def tokenKeys : List Bytes :=
  [ascii "version", ascii "res", ascii "et", ascii "method", ascii "sign"]

/-! ### Reading a token back -/

/-- The pieces of `s` between the occurrences of `sep`. -/
def splitOn (sep : Byte) : Bytes → List Bytes
  | [] => [[]]
  | c :: rest =>
    if c = sep then [] :: splitOn sep rest
    else
      match splitOn sep rest with
      | [] => [[c]]
      | p :: ps => (c :: p) :: ps

/-- Go `strings.Cut(s, sep)` for a one-byte separator: what precedes the first `sep`
and what follows it. -/
def cutAt (sep : Byte) : Bytes → Bytes × Bytes
  | [] => ([], [])
  | c :: rest =>
    if c = sep then ([], rest)
    else ((c :: (cutAt sep rest).1), (cutAt sep rest).2)

/-- One `key=value` pair, both sides unescaped. -/
def parsePair (piece : Bytes) : Option (Bytes × Bytes) :=
  match queryUnescape (cutAt 61 piece).1, queryUnescape (cutAt 61 piece).2 with
  | some k, some v => some (k, v)
  | _, _ => none

/-- All or nothing of a list of options. -/
def allSome {α : Type} : List (Option α) → Option (List α)
  | [] => some []
  | none :: _ => none
  | some a :: rest =>
    match allSome rest with
    | some tail => some (a :: tail)
    | none => none

/-- The query-encoded `key=value` pairs of a token, in the order of the string, as
`url.ParseQuery` reads them: split at `&`, cut at the first `=`, unescape both sides. -/
def parseToken (token : Bytes) : Option (List (Bytes × Bytes)) :=
  allSome ((splitOn 38 token).map parsePair)

/-- The method is one of md5, sha1, sha256, compared ignoring letter case. -/
def SupportedMethod (method : Bytes) : Prop :=
  toLower method = ascii "md5" ∨ toLower method = ascii "sha1" ∨
    toLower method = ascii "sha256"

/-- The five fields of a token in ascending key order, for the expiry `et`, the
resource path `res` and the signature `sign`. -/
def tokenFields (et : Int) (method res sign version : Bytes) : List (Bytes × Bytes) :=
  [(ascii "et", formatInt et), (ascii "method", method), (ascii "res", res),
   (ascii "sign", sign), (ascii "version", version)]

/-! ## Inbound messages -/

/-- What a reply handler writes to the log. -/
inductive ReplyLog where
  | parseFailed : ReplyLog
  | confirmed : ReplyLog
  | rejected : ReplyLog
  deriving DecidableEq

/-- The common body of the three reply handlers: the log line, or `none` when the
run-time panics.  `code.(float64)` is the one-result form of the type assertion, which
panics when `code` is present and is not a number. -/
def replyBody (payload : Option JVal) : Option ReplyLog :=
  match unmarshalMap payload with
  | none => some ReplyLog.parseFailed
  | some reply =>
    match reply.get? "code" with
    | none => some ReplyLog.rejected
    | some (JVal.num code) =>
      if code = 200 then some ReplyLog.confirmed else some ReplyLog.rejected
    | some _ => none

/-- Method `handlePropertyPostReply`. -/
def handlePropertyPostReply (_d : Device) (payload : Option JVal) : Option ReplyLog :=
  replyBody payload

/-- Method `handleEventPostReply`. -/
def handleEventPostReply (_d : Device) (payload : Option JVal) : Option ReplyLog :=
  replyBody payload

/-- Method `handlePackPostReply`. -/
def handlePackPostReply (_d : Device) (payload : Option JVal) : Option ReplyLog :=
  replyBody payload

/-- Method `handlePropertyGet`: the messages published.  `r`, `rTemp` and `rCsq` are
the draws of the two raw snapshots. -/
def handlePropertyGet (d : Device) (payload : Option JVal) (r : StaticRand)
    (rTemp rCsq : Nat) : List Publish :=
  match unmarshalMap payload with
  | none => []
  | some req =>
    let msgID := req.get "id"
    let allRawProperties :=
      copyInto (copyInto [] (generateRawStaticProperties r))
        (generateRawDynamicProperties d rTemp rCsq)
    [{ topic := getTopic d.Name PropertyGetReplyTopicTemplate,
       payload := JVal.obj
         [("id", msgID), ("version", JVal.str "1.0"), ("code", JVal.num 200),
          ("msg", JVal.str "success"), ("data", JVal.obj allRawProperties)] }]

/-- What one run of the message handler reads from its surroundings: the outcome of
the set-reply publish, the clock and the random draws. -/
structure HandlerEnv where
  replyOk : Bool
  nowMs : Int
  rTemp : Nat
  rCsq : Nat
  rStatic : StaticRand

/-- The handler returned by `createMessageHandler`, run on one message: the device
afterwards and the messages published, or `none` when the run-time panics. -/
def createMessageHandler (dev : Device) (topic : String) (payload : Option JVal)
    (env : HandlerEnv) : Option (Device × List Publish) :=
  let setTopic := getTopic dev.Name PropertySetTopicTemplate
  let getTopicVar := getTopic dev.Name PropertyGetTopicTemplate
  let postReplyTopic := getTopic dev.Name PropertyPostReplyTopicTemplate
  let eventReplyTopic := getTopic dev.Name EventPostReplyTopicTemplate
  let packReplyTopic := getTopic dev.Name PackPostReplyTopicTemplate
  if topic = setTopic then
    some (handlePropertySet dev payload env.replyOk env.nowMs env.rTemp env.rCsq)
  else if topic = getTopicVar then
    some (dev, handlePropertyGet dev payload env.rStatic env.rTemp env.rCsq)
  else if topic = postReplyTopic then
    (handlePropertyPostReply dev payload).map (fun _ => (dev, []))
  else if topic = eventReplyTopic then
    (handleEventPostReply dev payload).map (fun _ => (dev, []))
  else if topic = packReplyTopic then
    (handlePackPostReply dev payload).map (fun _ => (dev, []))
  else some (dev, [])

/-! ## Runner -/

/-- The calls on `time.Ticker` values that `runRunner` makes. -/
inductive TimerOp where
  | newTicker (period : Int) : TimerOp
  | stopTicker (period : Int) : TimerOp
  | newEventTicker : TimerOp
  | stopEventTicker : TimerOp
  deriving DecidableEq

/-- The local state of `runRunner`: the variable `currentInterval`, the period in
seconds of the ticker held by the variable `ticker`, and the ticker calls made so far,
in order. -/
structure Runner where
  currentInterval : Int
  tickerPeriod : Int
  ops : List TimerOp

/-- The statements of `runRunner` before its loop.  `time.NewTicker` panics on a
period that is not positive: `none`. -/
def runRunnerStart (d : Device) : Option Runner :=
  if 0 < d.Interval then
    some { currentInterval := d.Interval, tickerPeriod := d.Interval,
           ops := [TimerOp.newTicker d.Interval, TimerOp.newEventTicker] }
  else none

/-- What the `select` of `runRunner` can receive, with what the chosen case reads:
the connection state of the client, the device as it is then, the clock and the
random draws. -/
inductive RunnerEvent where
  | tick (connected : Bool) (d : Device) (nowMs : Int) (rTemp rCsq : Nat) : RunnerEvent
  | eventTick (connected : Bool) (d : Device) (nowMs nowSec : Int) (rAlarm : Nat) :
      RunnerEvent
  | control (newInterval : Int) : RunnerEvent

/-- One pass of the loop `for { select { ... } }` of `runRunner`: the runner afterwards
and the messages published.  Every case ends in the next pass of the loop. -/
def runnerStep (s : Runner) : RunnerEvent → Runner × List Publish
  | RunnerEvent.tick connected d nowMs rTemp rCsq =>
    (s, if connected then [postDeviceProperty d false nowMs rTemp rCsq] else [])
  | RunnerEvent.eventTick connected d nowMs nowSec rAlarm =>
    (s, if connected then [postDeviceEvent d "alarm" CurrentEventFormat nowMs nowSec rAlarm]
        else [])
  | RunnerEvent.control newInterval =>
    if 0 < newInterval ∧ newInterval ≠ s.currentInterval then
      ({ currentInterval := newInterval, tickerPeriod := newInterval,
         ops := s.ops ++ [TimerOp.stopTicker s.tickerPeriod, TimerOp.newTicker newInterval] },
       [])
    else (s, [])

/-- What happens around a running `runRunner`: a receive of its `select`, or the stop
signal, `close(stopSig)` in `main`.  The stop channel is handed to `runDeviceWithStop`
only; `runRunner` has no case for it. -/
inductive SessionEvent where
  | runner (e : RunnerEvent) : SessionEvent
  | stopSignal : SessionEvent

/-- The runner under one session event. -/
def sessionStep (s : Runner) : SessionEvent → Runner × List Publish
  | SessionEvent.runner e => runnerStep s e
  | SessionEvent.stopSignal => (s, [])

/-- The runner under a sequence of session events, with the messages published. -/
def sessionRun (s : Runner) : List SessionEvent → Runner × List Publish
  | [] => (s, [])
  | e :: rest =>
    ((sessionRun (sessionStep s e).1 rest).1,
     (sessionStep s e).2 ++ (sessionRun (sessionStep s e).1 rest).2)

/-- The runner under a sequence of receives of its `select`. -/
def runnerRun (s : Runner) (events : List RunnerEvent) : Runner × List Publish :=
  sessionRun s (events.map SessionEvent.runner)

/-! # Theorems -/

/-! ## Maps -/

theorem GoMap.get?_eq_none_of_not_mem_keys (m : GoMap) (k : String) (h : k ∉ m.keys) :
    m.get? k = none := by
  induction m with
  | nil => rfl
  | cons kv rest ih =>
    obtain ⟨k1, v⟩ := kv
    simp only [GoMap.keys, List.map_cons, List.mem_cons, not_or] at h
    have hne : ¬ k1 = k := fun e => h.1 e.symm
    simp only [GoMap.get?, hne, if_false]
    exact ih h.2

/-! ## Property set -/

theorem toInt32_of_inInt32 (v : Int) (h : InInt32 v) : toInt32 v = v := by
  unfold InInt32 at h
  unfold toInt32
  omega

theorem setProperty_Name (d : Device) (kv : String × JVal) :
    (setProperty d kv).Name = d.Name := by
  unfold setProperty
  split <;> [skip; rfl]
  split_ifs <;> rfl

theorem setProperty_StaticProps (d : Device) (kv : String × JVal) :
    (setProperty d kv).StaticProps = d.StaticProps := by
  unfold setProperty
  split <;> [skip; rfl]
  split_ifs <;> rfl

theorem foldl_setProperty_Name (params : GoMap) (d : Device) :
    (params.foldl setProperty d).Name = d.Name := by
  induction params generalizing d with
  | nil => rfl
  | cons kv rest ih => rw [List.foldl_cons, ih, setProperty_Name]

theorem foldl_setProperty_StaticProps (params : GoMap) (d : Device) :
    (params.foldl setProperty d).StaticProps = d.StaticProps := by
  induction params generalizing d with
  | nil => rfl
  | cons kv rest ih => rw [List.foldl_cons, ih, setProperty_StaticProps]

theorem foldl_setProperty_OUT (params : GoMap) (d : Device) (hk : params.keys.Nodup)
    (hr : ∀ k v, (k, JVal.num v) ∈ params → k ∈ writableNames → InInt32 v) :
    (params.foldl setProperty d).OUT = specField params "OUT" d.OUT := by
  induction params generalizing d with
  | nil => rfl
  | cons kv rest ih =>
    obtain ⟨k, v⟩ := kv
    simp only [GoMap.keys, List.map_cons, List.nodup_cons] at hk
    have hr1 : ∀ k v, (k, JVal.num v) ∈ rest → k ∈ writableNames → InInt32 v :=
      fun k v h => hr k v (List.mem_cons_of_mem _ h)
    rw [List.foldl_cons, ih _ hk.2 hr1]
    by_cases hkey : k = "OUT"
    · subst hkey
      have hnone := GoMap.get?_eq_none_of_not_mem_keys rest "OUT" hk.1
      cases v with
      | num n =>
        have hn := toInt32_of_inInt32 n (hr "OUT" n (List.mem_cons_self _ _) (by decide))
        simp [specField, GoMap.get?, hnone, setProperty, hn]
      | _ => simp [specField, GoMap.get?, hnone, setProperty]
    · have hsame : (setProperty d (k, v)).OUT = d.OUT := by
        unfold setProperty
        split <;> [skip; rfl]
        simp only [hkey, if_false]
        split_ifs <;> rfl
      simp [specField, GoMap.get?, hkey, hsame]

theorem foldl_setProperty_Relay (params : GoMap) (d : Device) (hk : params.keys.Nodup)
    (hr : ∀ k v, (k, JVal.num v) ∈ params → k ∈ writableNames → InInt32 v) :
    (params.foldl setProperty d).Relay = specField params "relay" d.Relay := by
  induction params generalizing d with
  | nil => rfl
  | cons kv rest ih =>
    obtain ⟨k, v⟩ := kv
    simp only [GoMap.keys, List.map_cons, List.nodup_cons] at hk
    have hr1 : ∀ k v, (k, JVal.num v) ∈ rest → k ∈ writableNames → InInt32 v :=
      fun k v h => hr k v (List.mem_cons_of_mem _ h)
    rw [List.foldl_cons, ih _ hk.2 hr1]
    by_cases hkey : k = "relay"
    · subst hkey
      have hnone := GoMap.get?_eq_none_of_not_mem_keys rest "relay" hk.1
      cases v with
      | num n =>
        have hn := toInt32_of_inInt32 n (hr "relay" n (List.mem_cons_self _ _) (by decide))
        simp [specField, GoMap.get?, hnone, setProperty, hn]
      | _ => simp [specField, GoMap.get?, hnone, setProperty]
    · have hsame : (setProperty d (k, v)).Relay = d.Relay := by
        unfold setProperty
        split <;> [skip; rfl]
        simp only [hkey, if_false]
        split_ifs <;> rfl
      simp [specField, GoMap.get?, hkey, hsame]

theorem foldl_setProperty_Interval (params : GoMap) (d : Device) (hk : params.keys.Nodup)
    (hr : ∀ k v, (k, JVal.num v) ∈ params → k ∈ writableNames → InInt32 v) :
    (params.foldl setProperty d).Interval = specField params "interval" d.Interval := by
  induction params generalizing d with
  | nil => rfl
  | cons kv rest ih =>
    obtain ⟨k, v⟩ := kv
    simp only [GoMap.keys, List.map_cons, List.nodup_cons] at hk
    have hr1 : ∀ k v, (k, JVal.num v) ∈ rest → k ∈ writableNames → InInt32 v :=
      fun k v h => hr k v (List.mem_cons_of_mem _ h)
    rw [List.foldl_cons, ih _ hk.2 hr1]
    by_cases hkey : k = "interval"
    · subst hkey
      have hnone := GoMap.get?_eq_none_of_not_mem_keys rest "interval" hk.1
      cases v with
      | num n =>
        have hn := toInt32_of_inInt32 n (hr "interval" n (List.mem_cons_self _ _) (by decide))
        simp [specField, GoMap.get?, hnone, setProperty, hn]
      | _ => simp [specField, GoMap.get?, hnone, setProperty]
    · have hsame : (setProperty d (k, v)).Interval = d.Interval := by
        unfold setProperty
        split <;> [skip; rfl]
        simp only [hkey, if_false]
        split_ifs <;> rfl
      simp [specField, GoMap.get?, hkey, hsame]

/-- C1: for every device state and every property-set payload in scope (the `params`
names are pairwise distinct and the numbers given for the three writable names lie in
the `int32` range), the attributes
after `handlePropertySet` are those of the reference `specPropertySet`: without a
`params` object `OUT`, `Relay` and `Interval` are unchanged; otherwise each of `OUT`,
`relay`, `interval` writes its attribute when its value is a number and no other name
writes anything.  `Name` and `StaticProps` are never changed. -/
theorem handlePropertySet_refines_spec (d : Device) (payload : Option JVal)
    (replyOk : Bool) (nowMs : Int) (rTemp rCsq : Nat) (h : SetInScope payload) :
    (handlePropertySet d payload replyOk nowMs rTemp rCsq).1.OUT
        = (specPropertySet d payload).OUT ∧
    (handlePropertySet d payload replyOk nowMs rTemp rCsq).1.Relay
        = (specPropertySet d payload).Relay ∧
    (handlePropertySet d payload replyOk nowMs rTemp rCsq).1.Interval
        = (specPropertySet d payload).Interval ∧
    (handlePropertySet d payload replyOk nowMs rTemp rCsq).1.Name = d.Name ∧
    (handlePropertySet d payload replyOk nowMs rTemp rCsq).1.StaticProps = d.StaticProps := by
  unfold SetInScope at h
  unfold handlePropertySet specPropertySet
  cases payload with
  | none => simp [unmarshalMap, specParams]
  | some p =>
    cases p with
    | obj req =>
      simp only [unmarshalMap, specParams]
      cases hp : GoMap.get? req "params" with
      | none => simp
      | some pv =>
        cases pv with
        | obj params =>
          have hs : specParams (some (JVal.obj req)) = some params := by
            simp [specParams, hp]
          obtain ⟨hk, hr⟩ := h params hs
          have e1 := foldl_setProperty_OUT params d hk hr
          have e2 := foldl_setProperty_Relay params d hk hr
          have e3 := foldl_setProperty_Interval params d hk hr
          have e4 := foldl_setProperty_Name params d
          have e5 := foldl_setProperty_StaticProps params d
          cases replyOk <;> simp [e1, e2, e3, e4, e5]
        | _ => simp
    | null => simp [unmarshalMap, specParams, GoMap.get?]
    | _ => simp [unmarshalMap, specParams]

/-- C1, witness: the payload `{"params": {"interval": 5}}` is in scope; on the initial
state it sets `Interval` to 5 and leaves `OUT` and `Relay` at 0. -/
theorem handlePropertySet_refines_spec_witness :
    SetInScope (some (JVal.obj [("params", JVal.obj [("interval", JVal.num 5)])])) ∧
    (handlePropertySet (initDeviceState "dev" ⟨0, 0, 0, 0, 0⟩)
      (some (JVal.obj [("params", JVal.obj [("interval", JVal.num 5)])]))
      true 0 0 0).1.OUT = 0 ∧
    (handlePropertySet (initDeviceState "dev" ⟨0, 0, 0, 0, 0⟩)
      (some (JVal.obj [("params", JVal.obj [("interval", JVal.num 5)])]))
      true 0 0 0).1.Relay = 0 ∧
    (handlePropertySet (initDeviceState "dev" ⟨0, 0, 0, 0, 0⟩)
      (some (JVal.obj [("params", JVal.obj [("interval", JVal.num 5)])]))
      true 0 0 0).1.Interval = 5 := by
  have hs : SetInScope (some (JVal.obj [("params", JVal.obj [("interval", JVal.num 5)])])) := by
    intro params hp
    simp only [specParams, GoMap.get?, if_true, Option.some.injEq] at hp
    subst hp
    refine ⟨by decide, ?_⟩
    intro k v hmem _
    simp only [List.mem_singleton, Prod.mk.injEq, JVal.num.injEq] at hmem
    rw [hmem.2]
    unfold InInt32
    decide
  have key := handlePropertySet_refines_spec (initDeviceState "dev" ⟨0, 0, 0, 0, 0⟩)
    (some (JVal.obj [("params", JVal.obj [("interval", JVal.num 5)])])) true 0 0 0 hs
  exact ⟨hs, key.1.trans rfl, key.2.1.trans rfl, key.2.2.1.trans rfl⟩


/-- C2, counterexample: when the reply publish fails, the property set
`{"params": {"interval": 5}}` publishes nothing to the property-post topic. -/
theorem handlePropertySet_no_report_on_failed_reply :
    ¬ ∃ p ∈ (handlePropertySet (initDeviceState "dev" ⟨0, 0, 0, 0, 0⟩)
        (some (JVal.obj [("params", JVal.obj [("interval", JVal.num 5)])]))
        false 0 0 0).2, p.topic = getTopic "dev" PropertyPostTopicTemplate := by
  decide

/-- C2, amended: for every property-set payload with an object `params` field,
`handlePropertySet` publishes first one reply to the resolved property-set-reply topic
with code 200, msg "success" and the request's id; when that publish succeeds it then
publishes one partial property report to the resolved property-post topic, built from
the updated state, and when it fails it publishes nothing more. -/
theorem handlePropertySet_publishes (d : Device) (req params : GoMap) (replyOk : Bool)
    (nowMs : Int) (rTemp rCsq : Nat)
    (h : GoMap.get? req "params" = some (JVal.obj params)) :
    (handlePropertySet d (some (JVal.obj req)) replyOk nowMs rTemp rCsq).2 =
      { topic := getTopic d.Name PropertySetReplyTopicTemplate,
        payload := JVal.obj
          [("id", GoMap.get req "id"), ("version", JVal.str "1.0"),
           ("code", JVal.num 200), ("msg", JVal.str "success")] } ::
      (if replyOk then
        [{ topic := getTopic d.Name PropertyPostTopicTemplate,
           payload := JVal.obj
             [("id", JVal.str (toString nowMs)), ("version", JVal.str "1.0"),
              ("params", JVal.obj (propertyParams
                (handlePropertySet d (some (JVal.obj req)) replyOk nowMs rTemp rCsq).1
                false rTemp rCsq))] }]
       else []) := by
  have hn := foldl_setProperty_Name params d
  cases replyOk <;>
    simp [handlePropertySet, unmarshalMap, h, setReply, postDeviceProperty, hn]

/-- C2, witness: `{"id": "7", "params": {"interval": 5}}` with a successful reply
publish gives the reply and then the partial report. -/
theorem handlePropertySet_publishes_witness :
    (handlePropertySet (initDeviceState "dev" ⟨0, 0, 0, 0, 0⟩)
      (some (JVal.obj [("id", JVal.str "7"),
        ("params", JVal.obj [("interval", JVal.num 5)])])) true 1000 3 4).2 =
      [{ topic := "$sys//dev/thing/property/set_reply",
         payload := JVal.obj
           [("id", JVal.str "7"), ("version", JVal.str "1.0"),
            ("code", JVal.num 200), ("msg", JVal.str "success")] },
       { topic := "$sys//dev/thing/property/post",
         payload := JVal.obj
           [("id", JVal.str "1000"), ("version", JVal.str "1.0"),
            ("params", JVal.obj
              [("temperature", wrapValue (JVal.num 13)), ("csq", wrapValue (JVal.num 4)),
               ("OUT", wrapValue (JVal.num 0)), ("relay", wrapValue (JVal.num 0)),
               ("interval", wrapValue (JVal.num 5))])] }] :=
  (handlePropertySet_publishes (initDeviceState "dev" ⟨0, 0, 0, 0, 0⟩)
    [("id", JVal.str "7"), ("params", JVal.obj [("interval", JVal.num 5)])]
    [("interval", JVal.num 5)] true 1000 3 4 rfl).trans rfl


/-- C3, counterexample: after the property sets interval 5 and then interval 7 with no
receive in between, the value the runner receives is not the latest one, 7. -/
theorem recvControl_not_latest :
    ¬ ((recvControl
        (handlePropertySet
          (handlePropertySet (initDeviceState "dev" ⟨0, 0, 0, 0, 0⟩)
            (intervalSet 5) true 0 0 0).1
          (intervalSet 7) true 0 0 0).1).map Prod.fst = some 7) := by
  decide

/-- C3, amended: from an empty interval-change channel, after two successive property
sets with the `int32` intervals `a` and then `b` and no receive in between, the value
the runner receives next is the first one, `a`; the second push is dropped by the
non-blocking send, so `b` is not queued and the channel is empty after that receive,
while the device's `Interval` is `b`. -/
theorem recvControl_first_push_wins (d : Device) (a b : Int) (ok1 ok2 : Bool)
    (t1 t2 : Int) (r1 r2 r3 r4 : Nat)
    (hempty : d.controlChan = none) (ha : InInt32 a) (hb : InInt32 b) :
    (recvControl
      (handlePropertySet (handlePropertySet d (intervalSet a) ok1 t1 r1 r2).1
        (intervalSet b) ok2 t2 r3 r4).1).map Prod.fst = some a ∧
    (recvControl
      (handlePropertySet (handlePropertySet d (intervalSet a) ok1 t1 r1 r2).1
        (intervalSet b) ok2 t2 r3 r4).1).map (fun r => r.2.controlChan) = some none ∧
    (handlePropertySet (handlePropertySet d (intervalSet a) ok1 t1 r1 r2).1
        (intervalSet b) ok2 t2 r3 r4).1.Interval = b := by
  have ea := toInt32_of_inInt32 a ha
  have eb := toInt32_of_inInt32 b hb
  cases ok1 <;> cases ok2 <;>
    simp [handlePropertySet, intervalSet, unmarshalMap, GoMap.get?, setProperty, trySend,
      recvControl, hempty, ea, eb]

/-- C3, witness: intervals 5 then 7 on a fresh device; the runner receives 5. -/
theorem recvControl_first_push_wins_witness :
    (recvControl
      (handlePropertySet
        (handlePropertySet (initDeviceState "dev" ⟨0, 0, 0, 0, 0⟩)
          (intervalSet 5) true 0 0 0).1
        (intervalSet 7) true 0 0 0).1).map Prod.fst = some 5 :=
  (recvControl_first_push_wins (initDeviceState "dev" ⟨0, 0, 0, 0, 0⟩) 5 7 true true 0 0
    0 0 0 0 rfl (by unfold InInt32; decide) (by unfold InInt32; decide)).1


/-- C8: `postDeviceEvent` publishes to the resolved event-post topic in the direct and
wrapped formats and to the resolved pack-post topic in the batch format; in the batch
format `params` holds an `events` array of exactly one element and an empty
`properties` object; in every format the event parameters are the five flags
`powerOff`, `overcurrent`, `smoke`, `IN1`, `IN2`, each the integer 0 or 1 (bare in the
direct and batch formats, each in a value envelope in the wrapped format). -/
theorem postDeviceEvent_topic_and_shape (d : Device) (eventID : String)
    (nowMs nowSec : Int) (rAlarm : Nat) :
    (postDeviceEvent d eventID EventReportFormat.FormatDirect nowMs nowSec rAlarm).topic
      = getTopic d.Name EventPostTopicTemplate ∧
    (postDeviceEvent d eventID EventReportFormat.FormatWrapped nowMs nowSec rAlarm).topic
      = getTopic d.Name EventPostTopicTemplate ∧
    (postDeviceEvent d eventID EventReportFormat.FormatBatch nowMs nowSec rAlarm).topic
      = getTopic d.Name PackPostTopicTemplate ∧
    (∃ e, (((postDeviceEvent d eventID EventReportFormat.FormatBatch nowMs nowSec
          rAlarm).payload.field? "params").bind (fun p => p.field? "events")
        = some (JVal.arr [e])) ∧
      e.field? "params" = some (JVal.obj (rawEventParams rAlarm))) ∧
    ((postDeviceEvent d eventID EventReportFormat.FormatBatch nowMs nowSec
        rAlarm).payload.field? "params").bind (fun p => p.field? "properties")
      = some (JVal.obj []) ∧
    ((postDeviceEvent d eventID EventReportFormat.FormatDirect nowMs nowSec
        rAlarm).payload.field? "params").bind (fun p => (p.field? eventID).bind
          (fun w => w.field? "value"))
      = some (JVal.obj (rawEventParams rAlarm)) ∧
    ((postDeviceEvent d eventID EventReportFormat.FormatWrapped nowMs nowSec
        rAlarm).payload.field? "params").bind
          (fun p => match p with
            | JVal.obj kvs => unwrapAll kvs
            | _ => none)
      = some (rawEventParams rAlarm) ∧
    (rawEventParams rAlarm).keys = ["powerOff", "overcurrent", "smoke", "IN1", "IN2"] ∧
    (∀ kv ∈ rawEventParams rAlarm, kv.2 = JVal.num 0 ∨ kv.2 = JVal.num 1) := by
  refine ⟨rfl, rfl, rfl, ⟨_, rfl, rfl⟩, rfl, ?_, rfl, rfl, ?_⟩
  · simp [postDeviceEvent, JVal.field?, GoMap.get?]
  · intro kv hkv
    have h2 : rAlarm % 2 = 0 ∨ rAlarm % 2 = 1 := by omega
    simp only [rawEventParams, List.mem_cons, List.mem_singleton, List.not_mem_nil,
      or_false] at hkv
    rcases hkv with h | h | h | h | h
    · subst h
      rcases h2 with e | e
      · left; show JVal.num ((rAlarm % 2 : Nat) : Int) = JVal.num 0; rw [e]; rfl
      · right; show JVal.num ((rAlarm % 2 : Nat) : Int) = JVal.num 1; rw [e]; rfl
    · subst h; left; rfl
    · subst h; left; rfl
    · subst h; right; rfl
    · subst h; left; rfl


/-- C9, divergence: in the batch format the `identifier` of the single event is the
constant "alarm", not the argument: `postDeviceEvent("fault")` reports "alarm".  The
direct format does key `params` by the argument, for every event identifier. -/
theorem postDeviceEvent_batch_identifier_fixed :
    (∃ e, (((postDeviceEvent (initDeviceState "dev" ⟨0, 0, 0, 0, 0⟩) "fault"
          EventReportFormat.FormatBatch 0 0 0).payload.field? "params").bind
            (fun p => p.field? "events") = some (JVal.arr [e])) ∧
      e.field? "identifier" = some (JVal.str "alarm") ∧
      e.field? "identifier" ≠ some (JVal.str "fault")) ∧
    (∀ eventID : String,
      (postDeviceEvent (initDeviceState "dev" ⟨0, 0, 0, 0, 0⟩) eventID
          EventReportFormat.FormatDirect 0 0 0).payload.field? "params"
        = some (JVal.obj [(eventID, JVal.obj [("value", JVal.obj (rawEventParams 0))])])) := by
  refine ⟨⟨_, rfl, rfl, ?_⟩, fun _ => rfl⟩
  simp [JVal.field?, GoMap.get?]

/-- C10: for every device state, the `params` of a full property report are all
value envelopes, and unwrapping them gives a map whose keys are the keys of the raw
static snapshot cached at `initDeviceState` followed by the keys of a fresh raw
dynamic snapshot (`temperature`, `csq`, `OUT`, `relay`, `interval`); every static key
maps to its cached raw value and `OUT`, `relay`, `interval` map to the device's
current `OUT`, `Relay`, `Interval`. -/
theorem postDeviceProperty_full_unwrap (deviceName : String) (r : StaticRand)
    (out relay interval : Int) (ch : Option Int) (nowMs : Int) (rTemp rCsq : Nat) :
    (postDeviceProperty (deviceWith deviceName r out relay interval ch) true nowMs rTemp
        rCsq).payload.field? "params"
      = some (JVal.obj
          (propertyParams (deviceWith deviceName r out relay interval ch) true rTemp rCsq)) ∧
    (∀ kv ∈ propertyParams (deviceWith deviceName r out relay interval ch) true rTemp rCsq,
      ∃ raw, kv.2 = wrapValue raw) ∧
    ∃ u, unwrapAll
        (propertyParams (deviceWith deviceName r out relay interval ch) true rTemp rCsq)
        = some u ∧
      u.keys = (generateRawStaticProperties r).keys ++
        (generateRawDynamicProperties (deviceWith deviceName r out relay interval ch)
          rTemp rCsq).keys ∧
      u.keys.Nodup ∧
      (generateRawDynamicProperties (deviceWith deviceName r out relay interval ch)
          rTemp rCsq).keys = ["temperature", "csq", "OUT", "relay", "interval"] ∧
      (∀ k ∈ (generateRawStaticProperties r).keys,
        u.get? k = (generateRawStaticProperties r).get? k) ∧
      u.get? "OUT" = some (JVal.num out) ∧
      u.get? "relay" = some (JVal.num relay) ∧
      u.get? "interval" = some (JVal.num interval) := by
  have hp : propertyParams (deviceWith deviceName r out relay interval ch) true rTemp rCsq
      = (generateRawStaticProperties r ++
          generateRawDynamicProperties (deviceWith deviceName r out relay interval ch)
            rTemp rCsq).map (fun kv => (kv.1, wrapValue kv.2)) := rfl
  refine ⟨rfl, ?_, generateRawStaticProperties r ++
    generateRawDynamicProperties (deviceWith deviceName r out relay interval ch)
      rTemp rCsq, rfl, rfl, ?_, rfl, ?_, rfl, rfl, rfl⟩
  · intro kv hkv
    rw [hp, List.mem_map] at hkv
    obtain ⟨kv0, _, rfl⟩ := hkv
    exact ⟨kv0.2, rfl⟩
  · show List.Nodup ["imsi", "cell_info", "macs", "$OneNET_LBS", "$OneNET_LBS_WIFI",
      "temperature", "csq", "OUT", "relay", "interval"]
    decide
  · intro k hk
    simp only [GoMap.keys, generateRawStaticProperties, List.map_cons, List.map_nil,
      List.mem_cons, List.mem_singleton, List.not_mem_nil, or_false] at hk
    rcases hk with h | h | h | h | h <;> subst h <;> rfl


/-! ## Topics -/

theorem replaceAllAux_skip (old new : List Char) (k : Nat) (s : List Char) :
    replaceAllAux old new k s = replaceAllAux old new 0 (s.drop k) := by
  induction s generalizing k with
  | nil => cases k <;> simp [replaceAllAux]
  | cons c cs ih =>
    cases k with
    | zero => simp
    | succ k => simp only [replaceAllAux, List.drop_succ_cons]; exact ih k

theorem replaceAllAux_prefix (old new rest : List Char) (hne : old ≠ []) :
    replaceAllAux old new 0 (old ++ rest) = new ++ replaceAllAux old new 0 rest := by
  cases old with
  | nil => exact absurd rfl hne
  | cons c cs =>
    have hp : (c :: cs).isPrefixOf (c :: (cs ++ rest)) = true := by
      rw [List.isPrefixOf_iff_prefix]
      exact List.prefix_append (c :: cs) rest
    show replaceAllAux (c :: cs) new 0 (c :: (cs ++ rest)) = _
    rw [replaceAllAux, if_pos hp, replaceAllAux_skip]
    simp

theorem prefix_append_sep (old a y : List Char) (sep : Char)
    (h : old <+: a ++ sep :: y) : old <+: a ∨ sep ∈ old := by
  induction a generalizing old with
  | nil =>
    rw [List.nil_append, List.prefix_cons_iff] at h
    rcases h with h | ⟨t, ht, _⟩
    · left; rw [h]
    · right; rw [ht]; exact List.mem_cons_self _ _
  | cons c a ih =>
    rw [List.cons_append, List.prefix_cons_iff] at h
    rcases h with h | ⟨t, ht, hpre⟩
    · left; rw [h]; exact List.nil_prefix
    · rcases ih t hpre with h1 | h1
      · left; rw [ht]; exact List.cons_prefix_cons.mpr ⟨rfl, h1⟩
      · right; rw [ht]; exact List.mem_cons_of_mem _ h1

theorem infix_append_sep (w a b : List Char) (sep : Char) (hsep : sep ∉ w)
    (h : w <:+: a ++ sep :: b) : w <:+: a ∨ w <:+: b := by
  induction a with
  | nil =>
    rw [List.nil_append, List.infix_cons_iff] at h
    rcases h with h | h
    · rcases prefix_append_sep w [] b sep h with h1 | h1
      · left; exact h1.isInfix
      · exact absurd h1 hsep
    · right; exact h
  | cons c a ih =>
    rw [List.cons_append, List.infix_cons_iff] at h
    rcases h with h | h
    · rcases prefix_append_sep w (c :: a) b sep h with h1 | h1
      · left; exact h1.isInfix
      · exact absurd h1 hsep
    · rcases ih h with h1 | h1
      · left; exact List.infix_cons h1
      · right; exact h1

theorem replaceAllAux_sep (old new x y : List Char) (sep : Char) (hne : old ≠ [])
    (hsep : sep ∉ old) (hx : ¬ old <:+: x) :
    replaceAllAux old new 0 (x ++ sep :: y) = x ++ sep :: replaceAllAux old new 0 y := by
  induction x with
  | nil =>
    have hp : old.isPrefixOf (sep :: y) = false := by
      rw [Bool.eq_false_iff]
      intro hp
      rw [List.isPrefixOf_iff_prefix] at hp
      rcases prefix_append_sep old [] y sep hp with h1 | h1
      · exact hne (List.prefix_nil.mp h1)
      · exact hsep h1
    simp [replaceAllAux, hp]
  | cons c x ih =>
    have hp : old.isPrefixOf (c :: (x ++ sep :: y)) = false := by
      rw [Bool.eq_false_iff]
      intro hp
      rw [List.isPrefixOf_iff_prefix] at hp
      rcases prefix_append_sep old (c :: x) y sep hp with h1 | h1
      · exact hx h1.isInfix
      · exact hsep h1
    have hx1 : ¬ old <:+: x := fun h => hx (List.infix_cons h)
    simp [replaceAllAux, hp, ih hx1]

theorem replaceAllAux_of_not_infix (old new s : List Char)
    (hs : ¬ old <:+: s) : replaceAllAux old new 0 s = s := by
  induction s with
  | nil => rfl
  | cons c s ih =>
    have hp : old.isPrefixOf (c :: s) = false := by
      rw [Bool.eq_false_iff]
      intro hp
      rw [List.isPrefixOf_iff_prefix] at hp
      exact hs hp.isInfix
    have hs1 : ¬ old <:+: s := fun h => hs (List.infix_cons h)
    simp [replaceAllAux, hp, ih hs1]


theorem replaceAll_of_ne_nil (s old new : List Char) (hne : old ≠ []) :
    replaceAll s old new = replaceAllAux old new 0 s := by
  simp [replaceAll, hne]

/-- The common shape of the ten templates: `$sys/<product>/<device>/<rest>`. -/
theorem replaceAll_template (pid name rest : List Char)
    (hpid : ¬ devicePlaceholder.toList <:+: pid)
    (hrestP : ¬ productPlaceholder.toList <:+: rest)
    (hrestD : ¬ devicePlaceholder.toList <:+: rest) :
    replaceAll
      (replaceAll
        ("$sys".toList ++ '/' :: (productPlaceholder.toList ++
          '/' :: (devicePlaceholder.toList ++ '/' :: rest)))
        productPlaceholder.toList pid)
      devicePlaceholder.toList name
    = "$sys".toList ++ '/' :: (pid ++ '/' :: (name ++ '/' :: rest)) := by
  have hP : productPlaceholder.toList ≠ [] := by decide
  have hD : devicePlaceholder.toList ≠ [] := by decide
  have hsP : '/' ∉ productPlaceholder.toList := by decide
  have hsD : '/' ∉ devicePlaceholder.toList := by decide
  have step1 : replaceAll
      ("$sys".toList ++ '/' :: (productPlaceholder.toList ++
        '/' :: (devicePlaceholder.toList ++ '/' :: rest)))
      productPlaceholder.toList pid
      = "$sys".toList ++ '/' :: (pid ++ '/' :: (devicePlaceholder.toList ++ '/' :: rest)) := by
    rw [replaceAll_of_ne_nil _ _ _ hP,
      replaceAllAux_sep _ _ _ _ _ hP hsP (by decide),
      replaceAllAux_prefix _ _ _ hP]
    have e1 := replaceAllAux_sep productPlaceholder.toList pid []
      (devicePlaceholder.toList ++ '/' :: rest) '/' hP hsP (by decide)
    rw [List.nil_append] at e1
    rw [e1, replaceAllAux_sep _ _ _ _ _ hP hsP (by decide),
      replaceAllAux_of_not_infix _ _ _ hrestP]
    rfl
  rw [step1, replaceAll_of_ne_nil _ _ _ hD,
    replaceAllAux_sep _ _ _ _ _ hD hsD (by decide),
    replaceAllAux_sep _ _ _ _ _ hD hsD hpid,
    replaceAllAux_prefix _ _ _ hD]
  have e2 := replaceAllAux_sep devicePlaceholder.toList name [] rest '/' hD hsD (by decide)
  rw [List.nil_append] at e2
  rw [e2, replaceAllAux_of_not_infix _ _ _ hrestD]
  rfl

theorem not_infix_resolved (w pid name rest : List Char) (hsep : '/' ∉ w)
    (hsys : ¬ w <:+: "$sys".toList) (hpid : ¬ w <:+: pid) (hname : ¬ w <:+: name)
    (hrest : ¬ w <:+: rest) :
    ¬ w <:+: "$sys".toList ++ '/' :: (pid ++ '/' :: (name ++ '/' :: rest)) := by
  intro h
  rcases infix_append_sep w _ _ '/' hsep h with h1 | h1
  · exact hsys h1
  · rcases infix_append_sep w _ _ '/' hsep h1 with h2 | h2
    · exact hpid h2
    · rcases infix_append_sep w _ _ '/' hsep h2 with h3 | h3
      · exact hname h3
      · exact hrest h3

/-- Every canonical template is `$sys/<product placeholder>/<device placeholder>/<rest>`
with a rest that holds neither placeholder. -/
theorem canonicalTemplates_shape (t : String) (ht : t ∈ canonicalTemplates) :
    ∃ rest : List Char,
      t.toList = "$sys".toList ++ '/' :: (productPlaceholder.toList ++
        '/' :: (devicePlaceholder.toList ++ '/' :: rest)) ∧
      ¬ productPlaceholder.toList <:+: rest ∧ ¬ devicePlaceholder.toList <:+: rest := by
  simp only [canonicalTemplates, List.mem_cons, List.mem_singleton, List.not_mem_nil,
    or_false] at ht
  rcases ht with h | h | h | h | h | h | h | h | h | h <;> subst h
  · exact ⟨"thing/property/post".toList, by decide, by decide, by decide⟩
  · exact ⟨"thing/event/post".toList, by decide, by decide, by decide⟩
  · exact ⟨"thing/property/set_reply".toList, by decide, by decide, by decide⟩
  · exact ⟨"thing/property/get_reply".toList, by decide, by decide, by decide⟩
  · exact ⟨"thing/pack/post".toList, by decide, by decide, by decide⟩
  · exact ⟨"thing/property/post/reply".toList, by decide, by decide, by decide⟩
  · exact ⟨"thing/event/post/reply".toList, by decide, by decide, by decide⟩
  · exact ⟨"thing/pack/post/reply".toList, by decide, by decide, by decide⟩
  · exact ⟨"thing/property/set".toList, by decide, by decide, by decide⟩
  · exact ⟨"thing/property/get".toList, by decide, by decide, by decide⟩


theorem getTopicWith_toList (pid name t : String) :
    (getTopicWith pid name t).toList
      = replaceAll (replaceAll t.toList productPlaceholder.toList pid.toList)
          devicePlaceholder.toList name.toList := rfl

/-- C7, counterexample: with the device name `5S34OM4Rc6` the resolved property-post
topic still contains the literal product placeholder, and with the device name
`{device-name}x` resolving a second time changes the topic. -/
theorem getTopic_placeholder_remains :
    Contains (getTopic "5S34OM4Rc6" PropertyPostTopicTemplate) productPlaceholder ∧
    getTopic "\x7bdevice-name\x7dx"
        (getTopic "\x7bdevice-name\x7dx" PropertyPostTopicTemplate)
      ≠ getTopic "\x7bdevice-name\x7dx" PropertyPostTopicTemplate := by
  decide

/-- C7, amended: for each of the ten canonical templates and every product id and
device name that themselves contain neither placeholder literal, `getTopic` replaces
both placeholders (the topic is `$sys/<product id>/<device name>/<rest of the
template>`), the result contains neither the literal product placeholder nor the
literal `{device-name}`, and resolving the result again with the same identifiers
returns it unchanged. -/
theorem getTopicWith_resolves (pid name t : String) (ht : t ∈ canonicalTemplates)
    (hpp : ¬ Contains pid productPlaceholder) (hpd : ¬ Contains pid devicePlaceholder)
    (hnp : ¬ Contains name productPlaceholder) (hnd : ¬ Contains name devicePlaceholder) :
    (∃ rest : String,
      t = "$sys/" ++ productPlaceholder ++ "/" ++ devicePlaceholder ++ "/" ++ rest ∧
      getTopicWith pid name t = "$sys/" ++ pid ++ "/" ++ name ++ "/" ++ rest) ∧
    ¬ Contains (getTopicWith pid name t) productPlaceholder ∧
    ¬ Contains (getTopicWith pid name t) devicePlaceholder ∧
    getTopicWith pid name (getTopicWith pid name t) = getTopicWith pid name t := by
  unfold Contains at hpp hpd hnp hnd
  obtain ⟨rest, hshape, hrP, hrD⟩ := canonicalTemplates_shape t ht
  have hres : (getTopicWith pid name t).toList
      = "$sys".toList ++ '/' :: (pid.toList ++ '/' :: (name.toList ++ '/' :: rest)) := by
    rw [getTopicWith_toList, hshape]
    exact replaceAll_template pid.toList name.toList rest hpd hrP hrD
  have hnoP : ¬ productPlaceholder.toList <:+: (getTopicWith pid name t).toList := by
    rw [hres]
    exact not_infix_resolved _ _ _ _ (by decide) (by decide) hpp hnp hrP
  have hnoD : ¬ devicePlaceholder.toList <:+: (getTopicWith pid name t).toList := by
    rw [hres]
    exact not_infix_resolved _ _ _ _ (by decide) (by decide) hpd hnd hrD
  refine ⟨⟨String.mk rest, ?_, ?_⟩, hnoP, hnoD, ?_⟩
  · apply String.ext
    show t.toList = _
    rw [hshape]
    simp [String.data_append]
  · apply String.ext
    show (getTopicWith pid name t).toList = _
    rw [hres]
    simp [String.data_append]
  · apply String.ext
    show (getTopicWith pid name (getTopicWith pid name t)).toList
      = (getTopicWith pid name t).toList
    have e1 : replaceAll (getTopicWith pid name t).toList productPlaceholder.toList
        pid.toList = (getTopicWith pid name t).toList := by
      rw [replaceAll_of_ne_nil _ _ _ (by decide), replaceAllAux_of_not_infix _ _ _ hnoP]
    rw [getTopicWith_toList pid name (getTopicWith pid name t), e1,
      replaceAll_of_ne_nil _ _ _ (by decide), replaceAllAux_of_not_infix _ _ _ hnoD]

/-- C7, witness: the configured product id (empty) and the device name
`866560088910415` on the property-post template. -/
theorem getTopicWith_resolves_witness :
    ¬ Contains (getTopicWith ProductID "866560088910415" PropertyPostTopicTemplate)
        productPlaceholder ∧
    ¬ Contains (getTopicWith ProductID "866560088910415" PropertyPostTopicTemplate)
        devicePlaceholder ∧
    getTopicWith ProductID "866560088910415"
        (getTopicWith ProductID "866560088910415" PropertyPostTopicTemplate)
      = getTopicWith ProductID "866560088910415" PropertyPostTopicTemplate :=
  (getTopicWith_resolves ProductID "866560088910415" PropertyPostTopicTemplate
    (by decide) (by decide) (by decide) (by decide) (by decide)).2


/-! ## Token encoding -/

theorem sortStrings_of_perm (iter : List Bytes) (h : iter.Perm tokenKeys) :
    sortStrings iter
      = [ascii "et", ascii "method", ascii "res", ascii "sign", ascii "version"] := by
  have hs : List.Sorted (fun a b : Bytes => a ≤ b)
      [ascii "et", ascii "method", ascii "res", ascii "sign", ascii "version"] := by
    decide
  have hp : (sortStrings iter).Perm
      [ascii "et", ascii "method", ascii "res", ascii "sign", ascii "version"] :=
    ((List.perm_insertionSort _ iter).trans h).trans (by decide)
  exact List.eq_of_perm_of_sorted hp (List.sorted_insertionSort _ iter) hs

set_option maxRecDepth 100000 in
theorem escapeByte_facts :
    ∀ c : Byte,
      (unreserved c = true → c.val ≠ 37 ∧ c.val ≠ 43) ∧
      hexVal (hexDigit (c.val / 16)) = some (c.val / 16) ∧
      hexVal (hexDigit (c.val % 16)) = some (c.val % 16) ∧
      (Fin.ofNat (c.val / 16 * 16 + c.val % 16) : Byte) = c ∧
      (38 : Byte) ∉ escapeByte c ∧ (61 : Byte) ∉ escapeByte c := by
  decide


theorem queryUnescape_cons_plain (c : Byte) (rest : Bytes) (h : c.val ≠ 37) :
    queryUnescape (c :: rest)
      = (queryUnescape rest).map (fun tail => (if c.val = 43 then 32 else c) :: tail) := by
  conv_lhs => unfold queryUnescape
  simp only [h, if_false]
  cases queryUnescape rest <;> rfl

theorem queryUnescape_percent (h l : Byte) (rest : Bytes) (vh vl : Nat)
    (eh : hexVal h = some vh) (el : hexVal l = some vl) :
    queryUnescape (37 :: h :: l :: rest)
      = (queryUnescape rest).map (fun tail => Fin.ofNat (vh * 16 + vl) :: tail) := by
  conv_lhs => unfold queryUnescape
  have e37 : ((37 : Byte).val = 37) := rfl
  simp only [e37, if_true, eh, el]
  cases queryUnescape rest <;> rfl

theorem queryUnescape_escapeByte (c : Byte) (rest : Bytes) :
    queryUnescape (escapeByte c ++ rest) = (queryUnescape rest).map (fun tail => c :: tail) := by
  obtain ⟨hu, hh, hl, hv, _, _⟩ := escapeByte_facts c
  unfold escapeByte
  by_cases h1 : unreserved c = true
  · obtain ⟨n37, n43⟩ := hu h1
    rw [if_pos h1, List.singleton_append, queryUnescape_cons_plain c rest n37, if_neg n43]
  · by_cases h2 : c.val = 32
    · have hc : c = 32 := Fin.ext h2
      rw [if_neg h1, if_pos h2, List.singleton_append,
        queryUnescape_cons_plain 43 rest (by decide), hc]
      rfl
    · rw [if_neg h1, if_neg h2]
      show queryUnescape (37 :: hexDigit (c.val / 16) :: hexDigit (c.val % 16) :: rest) = _
      rw [queryUnescape_percent _ _ rest _ _ hh hl, hv]

theorem queryUnescape_queryEscape (s : Bytes) : queryUnescape (queryEscape s) = some s := by
  induction s with
  | nil => rfl
  | cons c s ih =>
    have e : queryEscape (c :: s) = escapeByte c ++ queryEscape s := by
      simp [queryEscape]
    rw [e, queryUnescape_escapeByte, ih]
    rfl

theorem not_mem_queryEscape (s : Bytes) :
    (38 : Byte) ∉ queryEscape s ∧ (61 : Byte) ∉ queryEscape s := by
  induction s with
  | nil => exact ⟨by simp [queryEscape], by simp [queryEscape]⟩
  | cons c s ih =>
    obtain ⟨_, _, _, _, h38, h61⟩ := escapeByte_facts c
    have e : queryEscape (c :: s) = escapeByte c ++ queryEscape s := by
      simp [queryEscape]
    rw [e]
    constructor
    · intro h
      rcases List.mem_append.mp h with h | h
      · exact h38 h
      · exact ih.1 h
    · intro h
      rcases List.mem_append.mp h with h | h
      · exact h61 h
      · exact ih.2 h

theorem splitOn_of_not_mem (sep : Byte) (x : Bytes) (h : sep ∉ x) : splitOn sep x = [x] := by
  induction x with
  | nil => rfl
  | cons c x ih =>
    have hc : c ≠ sep := fun e => h (e ▸ List.mem_cons_self _ _)
    have hx : sep ∉ x := fun e => h (List.mem_cons_of_mem _ e)
    simp [splitOn, hc, ih hx]

theorem splitOn_append_sep (sep : Byte) (x y : Bytes) (h : sep ∉ x) :
    splitOn sep (x ++ sep :: y) = x :: splitOn sep y := by
  induction x with
  | nil => simp [splitOn]
  | cons c x ih =>
    have hc : c ≠ sep := fun e => h (e ▸ List.mem_cons_self _ _)
    have hx : sep ∉ x := fun e => h (List.mem_cons_of_mem _ e)
    simp [splitOn, hc, ih hx]

theorem cutAt_append_sep (sep : Byte) (x y : Bytes) (h : sep ∉ x) :
    cutAt sep (x ++ sep :: y) = (x, y) := by
  induction x with
  | nil => simp [cutAt]
  | cons c x ih =>
    have hc : c ≠ sep := fun e => h (e ▸ List.mem_cons_self _ _)
    have hx : sep ∉ x := fun e => h (List.mem_cons_of_mem _ e)
    simp [cutAt, hc, ih hx]

theorem parsePair_encoded (k v : Bytes) (hk : (61 : Byte) ∉ k)
    (hu : queryUnescape k = some k) :
    parsePair (k ++ ascii "=" ++ queryEscape v) = some (k, v) := by
  have e : k ++ ascii "=" ++ queryEscape v = k ++ (61 : Byte) :: queryEscape v := by
    rw [List.append_assoc]; rfl
  rw [e]
  unfold parsePair
  rw [cutAt_append_sep 61 k _ hk]
  simp [hu, queryUnescape_queryEscape]

theorem not_mem_encoded (k v : Bytes) (hk : (38 : Byte) ∉ k) :
    (38 : Byte) ∉ k ++ ascii "=" ++ queryEscape v := by
  intro h
  rcases List.mem_append.mp h with h | h
  · rcases List.mem_append.mp h with h | h
    · exact hk h
    · revert h; decide
  · exact (not_mem_queryEscape v).1 h

/-- Reading back a joined list of encoded pairs gives the pairs. -/
theorem parseToken_joinWith (pairs : List (Bytes × Bytes)) (hne : pairs ≠ [])
    (h : ∀ p ∈ pairs, (61 : Byte) ∉ p.1 ∧ (38 : Byte) ∉ p.1 ∧ queryUnescape p.1 = some p.1) :
    parseToken (joinWith (ascii "&")
      (pairs.map (fun p => p.1 ++ ascii "=" ++ queryEscape p.2))) = some pairs := by
  induction pairs with
  | nil => exact absurd rfl hne
  | cons p rest ih =>
    obtain ⟨h61, h38, hu⟩ := h p (List.mem_cons_self _ _)
    cases rest with
    | nil =>
      simp only [List.map_cons, List.map_nil, joinWith, parseToken]
      rw [splitOn_of_not_mem 38 _ (not_mem_encoded p.1 p.2 h38)]
      simp only [List.map_cons, List.map_nil, allSome, parsePair_encoded p.1 p.2 h61 hu]
    | cons q rest =>
      have ih1 := ih (List.cons_ne_nil _ _) (fun p hp => h p (List.mem_cons_of_mem _ hp))
      simp only [List.map_cons, joinWith] at ih1 ⊢
      have e : ∀ z : Bytes, p.1 ++ ascii "=" ++ queryEscape p.2 ++ ascii "&" ++ z
          = (p.1 ++ ascii "=" ++ queryEscape p.2) ++ (38 : Byte) :: z := by
        intro z; rw [List.append_assoc]; rfl
      rw [e]
      unfold parseToken at ih1 ⊢
      rw [splitOn_append_sep 38 _ _ (not_mem_encoded p.1 p.2 h38)]
      simp only [List.map_cons, allSome, parsePair_encoded p.1 p.2 h61 hu]
      rw [ih1]


theorem selectHash_isSome_iff (method : Bytes) :
    (selectHash method).isSome = true ↔ SupportedMethod method := by
  unfold selectHash SupportedMethod
  split_ifs with h1 h2 h3 <;> simp [*]

theorem OneNET_Sign_ok (H : KeyedHash) (key s method rawKey : Bytes) (alg : HashAlg)
    (hk : base64Decode key = some rawKey) (ha : selectHash method = some alg) :
    OneNET_Sign H key s method = (base64Encode (H.sum alg rawKey s), none) := by
  simp [OneNET_Sign, hk, ha]

theorem OneNET_Sign_ok_of (H : KeyedHash) (key s method : Bytes)
    (h : (OneNET_Sign H key s method).2 = none) :
    ∃ rawKey alg, base64Decode key = some rawKey ∧ selectHash method = some alg := by
  unfold OneNET_Sign at h
  cases hk : base64Decode key with
  | none => simp [hk] at h
  | some rawKey =>
    cases ha : selectHash method with
    | none => simp [hk, ha] at h
    | some alg => exact ⟨rawKey, alg, rfl, rfl⟩

/-- On success the token is the five encoded fields, in ascending key order, joined by
an ampersand. -/
theorem getOneNETToken_ok (H : KeyedHash) (now : Int) (iter : List Bytes)
    (productID deviceName accessKey method version rawKey : Bytes) (alg : HashAlg)
    (hiter : iter.Perm tokenKeys)
    (hk : base64Decode accessKey = some rawKey) (ha : selectHash method = some alg) :
    getOneNETToken H now iter productID deviceName accessKey method version =
      (joinWith (ascii "&")
        ((tokenFields (now + 3600) method (resourcePath productID deviceName)
            (OneNET_Sign H accessKey
              (stringForSignature (now + 3600) method (resourcePath productID deviceName)
                version) method).1 version).map
          (fun p => p.1 ++ ascii "=" ++ queryEscape p.2)), none) := by
  unfold getOneNETToken
  simp only [OneNET_Sign_ok H accessKey _ method rawKey alg hk ha,
    sortStrings_of_perm iter hiter]
  rfl

theorem parseToken_tokenFields (et : Int) (method res sign version : Bytes) :
    parseToken (joinWith (ascii "&")
      ((tokenFields et method res sign version).map
        (fun p => p.1 ++ ascii "=" ++ queryEscape p.2)))
      = some (tokenFields et method res sign version) := by
  apply parseToken_joinWith
  · simp [tokenFields]
  · intro p hp
    simp only [tokenFields, List.mem_cons, List.mem_singleton, List.not_mem_nil,
      or_false] at hp
    rcases hp with h | h | h | h | h <;> subst h <;> dsimp only <;> decide


/-! ## Base64 -/

theorem b64Char_facts :
    ∀ i : Fin 64, b64Val (b64Char i.val) = some i.val ∧ b64Char i.val ≠ b64Pad ∧
      b64Char i.val ≠ 13 ∧ b64Char i.val ≠ 10 := by
  decide

theorem b64Val_b64Char (i : Nat) (h : i < 64) : b64Val (b64Char i) = some i :=
  (b64Char_facts ⟨i, h⟩).1

theorem b64Char_ne_pad (i : Nat) (h : i < 64) : b64Char i ≠ b64Pad :=
  (b64Char_facts ⟨i, h⟩).2.1

theorem b64Char_keep (i : Nat) (h : i < 64) :
    (decide (b64Char i ≠ 13 ∧ b64Char i ≠ 10)) = true := by
  have := (b64Char_facts ⟨i, h⟩).2.2
  simpa using this

theorem byte_ofNat (n : Nat) (a : Byte) (h : n = a.val) : (Fin.ofNat n : Byte) = a := by
  apply Fin.ext
  have ha := a.isLt
  show n % 256 = a.val
  omega

theorem b64Quantums_base64Encode (xs : Bytes) : b64Quantums (base64Encode xs) = some xs := by
  induction xs using base64Encode.induct with
  | case1 => rfl
  | case2 a =>
    have ha := a.isLt
    have h0 := b64Val_b64Char (a.val / 4) (by omega)
    have h1 := b64Val_b64Char (a.val % 4 * 16) (by omega)
    simp only [base64Encode, b64Quantums, h0, h1, and_self, if_true]
    congr 2
    exact byte_ofNat _ _ (by omega)
  | case3 a b =>
    have ha := a.isLt
    have hb := b.isLt
    have h0 := b64Val_b64Char (a.val / 4) (by omega)
    have h1 := b64Val_b64Char (a.val % 4 * 16 + b.val / 16) (by omega)
    have h2 := b64Val_b64Char (b.val % 16 * 4) (by omega)
    have n2 := b64Char_ne_pad (b.val % 16 * 4) (by omega)
    simp only [base64Encode, b64Quantums, h0, h1, h2, n2, and_self, if_true, if_false]
    congr 2
    · exact byte_ofNat _ _ (by omega)
    · congr 1
      exact byte_ofNat _ _ (by omega)
  | case4 a b c rest ih =>
    have ha := a.isLt
    have hb := b.isLt
    have hc := c.isLt
    have h0 := b64Val_b64Char (a.val / 4) (by omega)
    have h1 := b64Val_b64Char (a.val % 4 * 16 + b.val / 16) (by omega)
    have h2 := b64Val_b64Char (b.val % 16 * 4 + c.val / 64) (by omega)
    have h3 := b64Val_b64Char (c.val % 64) (by omega)
    have n3 := b64Char_ne_pad (c.val % 64) (by omega)
    simp only [base64Encode, b64Quantums, h0, h1, h2, h3, n3, and_false, if_false, ih]
    congr 2
    · exact byte_ofNat _ _ (by omega)
    · congr 1
      · exact byte_ofNat _ _ (by omega)
      · congr 1
        exact byte_ofNat _ _ (by omega)

theorem filter_base64Encode (xs : Bytes) :
    (base64Encode xs).filter (fun c => c ≠ 13 ∧ c ≠ 10) = base64Encode xs := by
  have hp : (decide (b64Pad ≠ 13 ∧ b64Pad ≠ 10)) = true := by decide
  induction xs using base64Encode.induct with
  | case1 => rfl
  | case2 a =>
    have ha := a.isLt
    simp only [base64Encode, List.filter_cons, List.filter_nil, hp,
      b64Char_keep (a.val / 4) (by omega), b64Char_keep (a.val % 4 * 16) (by omega), if_true]
  | case3 a b =>
    have ha := a.isLt
    have hb := b.isLt
    simp only [base64Encode, List.filter_cons, List.filter_nil, hp,
      b64Char_keep (a.val / 4) (by omega),
      b64Char_keep (a.val % 4 * 16 + b.val / 16) (by omega),
      b64Char_keep (b.val % 16 * 4) (by omega), if_true]
  | case4 a b c rest ih =>
    have ha := a.isLt
    have hb := b.isLt
    have hc := c.isLt
    simp only [base64Encode, List.filter_cons, ih,
      b64Char_keep (a.val / 4) (by omega),
      b64Char_keep (a.val % 4 * 16 + b.val / 16) (by omega),
      b64Char_keep (b.val % 16 * 4 + c.val / 64) (by omega),
      b64Char_keep (c.val % 64) (by omega), if_true]

/-- Decoding an encoded byte string gives it back. -/
theorem base64Decode_base64Encode (xs : Bytes) : base64Decode (base64Encode xs) = some xs := by
  unfold base64Decode
  rw [filter_base64Encode, b64Quantums_base64Encode]


/-- On success the token reads back as its five fields. -/
theorem getOneNETToken_parse (H : KeyedHash) (now : Int) (iter : List Bytes)
    (productID deviceName accessKey method version rawKey : Bytes) (alg : HashAlg)
    (hiter : iter.Perm tokenKeys)
    (hk : base64Decode accessKey = some rawKey) (ha : selectHash method = some alg) :
    parseToken (getOneNETToken H now iter productID deviceName accessKey method version).1 =
      some (tokenFields (now + 3600) method (resourcePath productID deviceName)
        (OneNET_Sign H accessKey
          (stringForSignature (now + 3600) method (resourcePath productID deviceName)
            version) method).1 version) := by
  rw [getOneNETToken_ok H now iter productID deviceName accessKey method version rawKey alg
    hiter hk ha]
  exact parseToken_tokenFields _ _ _ _ _

/-- C4: for every product id, device name, version, supported method and valid base64
access key, whatever the order in which the map of the five parameters is iterated,
`getOneNETToken` succeeds and its token is the five `key=value` pairs for `et`,
`method`, `res`, `sign`, `version`, in this ascending order, joined by `&`, each value
being the `url.QueryEscape` of its field; reading the pairs back gives exactly these
five keys, once each and in ascending order, with the original field values. -/
theorem getOneNETToken_encoding (H : KeyedHash) (now : Int) (iter : List Bytes)
    (productID deviceName accessKey method version : Bytes)
    (hiter : iter.Perm tokenKeys) (hkey : base64Decode accessKey ≠ none)
    (hm : SupportedMethod method) :
    (getOneNETToken H now iter productID deviceName accessKey method version).2 = none ∧
    (getOneNETToken H now iter productID deviceName accessKey method version).1 =
      ascii "et=" ++ queryEscape (formatInt (now + 3600)) ++
      ascii "&method=" ++ queryEscape method ++
      ascii "&res=" ++ queryEscape (resourcePath productID deviceName) ++
      ascii "&sign=" ++ queryEscape
        (OneNET_Sign H accessKey
          (stringForSignature (now + 3600) method (resourcePath productID deviceName)
            version) method).1 ++
      ascii "&version=" ++ queryEscape version ∧
    parseToken (getOneNETToken H now iter productID deviceName accessKey method version).1 =
      some [(ascii "et", formatInt (now + 3600)), (ascii "method", method),
        (ascii "res", resourcePath productID deviceName),
        (ascii "sign", (OneNET_Sign H accessKey
          (stringForSignature (now + 3600) method (resourcePath productID deviceName)
            version) method).1),
        (ascii "version", version)] ∧
    List.Pairwise (fun a b : Bytes => a < b)
      [ascii "et", ascii "method", ascii "res", ascii "sign", ascii "version"] := by
  obtain ⟨rawKey, hk⟩ := Option.ne_none_iff_exists'.mp hkey
  obtain ⟨alg, ha⟩ := Option.isSome_iff_exists.mp ((selectHash_isSome_iff method).mpr hm)
  have hok := getOneNETToken_ok H now iter productID deviceName accessKey method version
    rawKey alg hiter hk ha
  refine ⟨by rw [hok], ?_, ?_, by decide⟩
  · rw [hok]
    simp only [tokenFields, List.map_cons, List.map_nil, joinWith, List.append_assoc]
    rfl
  · exact getOneNETToken_parse H now iter productID deviceName accessKey method version
      rawKey alg hiter hk ha

/-- C4, witness: product `p id`, device `d`, key `a2V5`, method `SHA1`, version
`2018-10-31` at time 1700000000, the map iterated in the order of its literal. -/
theorem getOneNETToken_encoding_witness :
    parseToken (getOneNETToken paddingHash 1700000000 tokenKeys (ascii "p id") (ascii "d")
        (ascii "a2V5") (ascii "SHA1") (ascii "2018-10-31")).1 =
      some [(ascii "et", ascii "1700003600"), (ascii "method", ascii "SHA1"),
        (ascii "res", ascii "products/p id/devices/d"),
        (ascii "sign", ascii "a2V5MTcwMDAwMzYwMApTSEExCnA="),
        (ascii "version", ascii "2018-10-31")] :=
  (getOneNETToken_encoding paddingHash 1700000000 tokenKeys (ascii "p id") (ascii "d")
    (ascii "a2V5") (ascii "SHA1") (ascii "2018-10-31") (List.Perm.refl _) (by decide)
    (by unfold SupportedMethod; decide)).2.2.1.trans (by decide)


theorem getOneNETToken_error (H : KeyedHash) (now : Int) (iter : List Bytes)
    (productID deviceName accessKey method version : Bytes) :
    (getOneNETToken H now iter productID deviceName accessKey method version).2 =
      (OneNET_Sign H accessKey
        (stringForSignature (now + 3600) method (resourcePath productID deviceName) version)
        method).2 ∧
    ((getOneNETToken H now iter productID deviceName accessKey method version).2 ≠ none →
      (getOneNETToken H now iter productID deviceName accessKey method version).1 = []) := by
  simp only [getOneNETToken]
  split
  · rename_i sig err heq
    rw [heq]
    exact ⟨rfl, fun _ => rfl⟩
  · rename_i sig heq
    rw [heq]
    exact ⟨rfl, fun h => absurd rfl h⟩


/-- C5: whenever `getOneNETToken` returns a token at time `t`, its `sign` field is
`OneNET_Sign(accessKey, s, method)` for `s` the expiry, the method, the resource path
and the version joined by single line feeds in that order; the expiry is `t` plus one
hour in Unix seconds and is the token's `et` field; the resource path is
`products/<productID>/devices/<deviceName>` and is the token's `res` field. -/
theorem getOneNETToken_sign_field (H : KeyedHash) (t : Int) (iter : List Bytes)
    (productID deviceName accessKey method version : Bytes)
    (hiter : iter.Perm tokenKeys)
    (hok : (getOneNETToken H t iter productID deviceName accessKey method version).2 = none) :
    ∃ et res sign : Bytes,
      parseToken (getOneNETToken H t iter productID deviceName accessKey method version).1
        = some [(ascii "et", et), (ascii "method", method), (ascii "res", res),
            (ascii "sign", sign), (ascii "version", version)] ∧
      et = formatInt (t + 3600) ∧
      res = ascii "products/" ++ productID ++ ascii "/devices/" ++ deviceName ∧
      sign = (OneNET_Sign H accessKey
        (et ++ [10] ++ method ++ [10] ++ res ++ [10] ++ version) method).1 := by
  have hs : (OneNET_Sign H accessKey
      (stringForSignature (t + 3600) method (resourcePath productID deviceName) version)
      method).2 = none :=
    (getOneNETToken_error H t iter productID deviceName accessKey method version).1.symm.trans
      hok
  obtain ⟨rawKey, alg, hk, ha⟩ := OneNET_Sign_ok_of H accessKey _ method hs
  have key := getOneNETToken_parse H t iter productID deviceName accessKey method version
    rawKey alg hiter hk ha
  exact ⟨_, _, _, key, rfl, rfl, rfl⟩

/-- C5, witness: the token of product `p id`, device `d`, key `a2V5`, method `SHA1`,
version `2018-10-31` at time 1700000000. -/
theorem getOneNETToken_sign_field_witness :
    ∃ et res sign : Bytes,
      parseToken (getOneNETToken paddingHash 1700000000 tokenKeys (ascii "p id") (ascii "d")
          (ascii "a2V5") (ascii "SHA1") (ascii "2018-10-31")).1
        = some [(ascii "et", et), (ascii "method", ascii "SHA1"), (ascii "res", res),
            (ascii "sign", sign), (ascii "version", ascii "2018-10-31")] ∧
      et = formatInt (1700000000 + 3600) ∧
      res = ascii "products/" ++ ascii "p id" ++ ascii "/devices/" ++ ascii "d" ∧
      sign = (OneNET_Sign paddingHash (ascii "a2V5")
        (et ++ [10] ++ ascii "SHA1" ++ [10] ++ res ++ [10] ++ ascii "2018-10-31")
        (ascii "SHA1")).1 :=
  getOneNETToken_sign_field paddingHash 1700000000 tokenKeys (ascii "p id") (ascii "d")
    (ascii "a2V5") (ascii "SHA1") (ascii "2018-10-31") (List.Perm.refl _) (by decide)

/-- The method name each hash is selected by. -/
theorem selectHash_eq_some_iff (method : Bytes) (alg : HashAlg) :
    selectHash method = some alg ↔
      (alg = HashAlg.md5 ∧ toLower method = ascii "md5") ∨
      (alg = HashAlg.sha1 ∧ toLower method = ascii "sha1") ∨
      (alg = HashAlg.sha256 ∧ toLower method = ascii "sha256") := by
  have n12 : ascii "md5" ≠ ascii "sha1" := by decide
  have n13 : ascii "md5" ≠ ascii "sha256" := by decide
  have n23 : ascii "sha1" ≠ ascii "sha256" := by decide
  unfold selectHash
  split_ifs with h1 h2 h3 <;> cases alg <;> simp_all


/-- C6: `OneNET_Sign` returns an error exactly when the secret is not accepted by the
standard base64 decoder or the method, ignoring letter case, is none of md5, sha1,
sha256; a key that does not decode is reported as such even when the method is
unsupported too; on error the signature is empty; on success the signature is the
standard base64 encoding of the keyed hash, and it decodes to 16, 20 or 32 bytes for
md5, sha1, sha256.  `getOneNETToken` returns the error of `OneNET_Sign`, with an empty
token, and none otherwise. -/
theorem OneNET_Sign_errors (H : KeyedHash) (key s method : Bytes) (now : Int)
    (iter : List Bytes) (productID deviceName version : Bytes) :
    ((OneNET_Sign H key s method).2 ≠ none ↔
      (base64Decode key = none ∨ ¬ SupportedMethod method)) ∧
    (base64Decode key = none →
      (OneNET_Sign H key s method).2 = some SignError.decodeKey) ∧
    (base64Decode key ≠ none → ¬ SupportedMethod method →
      (OneNET_Sign H key s method).2 = some SignError.unsupportedMethod) ∧
    ((OneNET_Sign H key s method).2 ≠ none → (OneNET_Sign H key s method).1 = []) ∧
    ((OneNET_Sign H key s method).2 = none →
      ∃ rawKey alg digest,
        base64Decode key = some rawKey ∧ selectHash method = some alg ∧
        digest = H.sum alg rawKey s ∧
        (OneNET_Sign H key s method).1 = base64Encode digest ∧
        base64Decode (OneNET_Sign H key s method).1 = some digest ∧
        (toLower method = ascii "md5" → digest.length = 16) ∧
        (toLower method = ascii "sha1" → digest.length = 20) ∧
        (toLower method = ascii "sha256" → digest.length = 32)) ∧
    ((getOneNETToken H now iter productID deviceName key method version).2 =
      (OneNET_Sign H key
        (stringForSignature (now + 3600) method (resourcePath productID deviceName) version)
        method).2) ∧
    ((getOneNETToken H now iter productID deviceName key method version).2 ≠ none →
      (getOneNETToken H now iter productID deviceName key method version).1 = []) := by
  have hsel := selectHash_isSome_iff method
  have htok := getOneNETToken_error H now iter productID deviceName key method version
  refine ⟨?_, ?_, ?_, ?_, ?_, htok.1, htok.2⟩
  · cases hk : base64Decode key with
    | none => simp [OneNET_Sign, hk]
    | some rawKey =>
      cases ha : selectHash method with
      | none =>
        have hns : ¬ SupportedMethod method := fun h => by
          have := hsel.mpr h
          rw [ha] at this
          exact Bool.false_ne_true this
        simp [OneNET_Sign, hk, ha, hns]
      | some alg =>
        have hs : SupportedMethod method := hsel.mp (by rw [ha]; rfl)
        simp [OneNET_Sign, hk, ha, hs]
  · intro hk
    simp [OneNET_Sign, hk]
  · intro hk hns
    obtain ⟨rawKey, hk1⟩ := Option.ne_none_iff_exists'.mp hk
    cases ha : selectHash method with
    | none => simp [OneNET_Sign, hk1, ha]
    | some alg => exact absurd (hsel.mp (by rw [ha]; rfl)) hns
  · intro herr
    cases hk : base64Decode key with
    | none => simp [OneNET_Sign, hk]
    | some rawKey =>
      cases ha : selectHash method with
      | none => simp [OneNET_Sign, hk, ha]
      | some alg => simp [OneNET_Sign, hk, ha] at herr
  · intro hok
    obtain ⟨rawKey, alg, hk, ha⟩ := OneNET_Sign_ok_of H key s method hok
    have hsig := OneNET_Sign_ok H key s method rawKey alg hk ha
    have hlen := H.size_eq alg rawKey s
    have hname := (selectHash_eq_some_iff method alg).mp ha
    have n12 : ascii "md5" ≠ ascii "sha1" := by decide
    have n13 : ascii "md5" ≠ ascii "sha256" := by decide
    have n23 : ascii "sha1" ≠ ascii "sha256" := by decide
    refine ⟨rawKey, alg, H.sum alg rawKey s, hk, ha, rfl, by rw [hsig], ?_, ?_, ?_, ?_⟩
    · rw [hsig]
      exact base64Decode_base64Encode _
    · intro hm
      rcases hname with ⟨e, _⟩ | ⟨_, e⟩ | ⟨_, e⟩
      · rw [hlen, e]; rfl
      · exact absurd (hm.symm.trans e) n12
      · exact absurd (hm.symm.trans e) n13
    · intro hm
      rcases hname with ⟨_, e⟩ | ⟨e, _⟩ | ⟨_, e⟩
      · exact absurd (e.symm.trans hm) n12
      · rw [hlen, e]; rfl
      · exact absurd (hm.symm.trans e) n23
    · intro hm
      rcases hname with ⟨_, e⟩ | ⟨_, e⟩ | ⟨e, _⟩
      · exact absurd (e.symm.trans hm) n13
      · exact absurd (e.symm.trans hm) n23
      · rw [hlen, e]; rfl


/-! ## Inbound messages -/

/-- With the configured product id every resolved topic is
`$sys//<device name>/<rest of the template>`, whatever the device name. -/
theorem getTopic_toList (name t : String) (ht : t ∈ canonicalTemplates) :
    ∃ rest : List Char,
      t.toList = "$sys".toList ++ '/' :: (productPlaceholder.toList ++
        '/' :: (devicePlaceholder.toList ++ '/' :: rest)) ∧
      (getTopic name t).toList = "$sys".toList ++ '/' :: ('/' :: (name.toList ++ '/' :: rest)) := by
  obtain ⟨rest, hshape, hrP, hrD⟩ := canonicalTemplates_shape t ht
  refine ⟨rest, hshape, ?_⟩
  show (getTopicWith ProductID name t).toList = _
  rw [getTopicWith_toList, hshape]
  exact replaceAll_template ProductID.toList name.toList rest (by decide) hrP hrD

/-- Two canonical templates that resolve to the same topic are the same template. -/
theorem getTopic_injective (name t1 t2 : String) (h1 : t1 ∈ canonicalTemplates)
    (h2 : t2 ∈ canonicalTemplates) (h : getTopic name t1 = getTopic name t2) : t1 = t2 := by
  obtain ⟨r1, s1, e1⟩ := getTopic_toList name t1 h1
  obtain ⟨r2, s2, e2⟩ := getTopic_toList name t2 h2
  have he : (getTopic name t1).toList = (getTopic name t2).toList := by rw [h]
  rw [e1, e2] at he
  have hr : r1 = r2 := by
    have h3 := List.append_cancel_left he
    simp only [List.cons.injEq, true_and] at h3
    have h4 := List.append_cancel_left h3
    simpa using h4
  apply String.ext
  show t1.toList = t2.toList
  rw [s1, s2, hr]


theorem createMessageHandler_reply (dev : Device) (t : String) (payload : Option JVal)
    (env : HandlerEnv)
    (ht : t ∈ [PropertyPostReplyTopicTemplate, EventPostReplyTopicTemplate,
      PackPostReplyTopicTemplate]) :
    createMessageHandler dev (getTopic dev.Name t) payload env
      = (replyBody payload).map (fun _ => (dev, [])) := by
  have hc : t ∈ canonicalTemplates := by
    simp only [List.mem_cons, List.mem_singleton, List.not_mem_nil, or_false] at ht
    rcases ht with h | h | h <;> subst h <;> decide
  have hset : getTopic dev.Name t ≠ getTopic dev.Name PropertySetTopicTemplate := by
    intro h
    have e := getTopic_injective dev.Name _ _ hc (by decide) h
    subst e
    revert ht
    decide
  have hget : getTopic dev.Name t ≠ getTopic dev.Name PropertyGetTopicTemplate := by
    intro h
    have e := getTopic_injective dev.Name _ _ hc (by decide) h
    subst e
    revert ht
    decide
  unfold createMessageHandler handlePropertyPostReply handleEventPostReply
    handlePackPostReply
  simp only [hset, hget, if_false]
  split_ifs <;> first | rfl | skip
  rename_i h1 h2 h3
  simp only [List.mem_cons, List.mem_singleton, List.not_mem_nil, or_false] at ht
  rcases ht with h | h | h <;> subst h
  · exact absurd rfl h1
  · exact absurd rfl h2
  · exact absurd rfl h3

theorem replyBody_eq_none_iff (payload : Option JVal) :
    replyBody payload = none ↔
      ∃ reply code, unmarshalMap payload = some reply ∧
        reply.get? "code" = some code ∧ ∀ n, code ≠ JVal.num n := by
  unfold replyBody
  cases hu : unmarshalMap payload with
  | none => simp
  | some reply =>
    simp only [Option.some.injEq, exists_eq_left']
    cases hc : reply.get? "code" with
    | none => simp [hc]
    | some code =>
      cases code with
      | num n =>
        simp only [hc, Option.some.injEq, exists_eq_left', ne_eq]
        constructor
        · intro h
          split_ifs at h
        · rintro ⟨reply1, code1, h1, h2, h3⟩
          subst h1
          rw [hc] at h2
          cases h2
          exact absurd rfl (h3 n)
      | null => simp [hc]
      | bool b => simp [hc]
      | str s => simp [hc]
      | arr xs => simp [hc]
      | obj kvs => simp [hc]

/-- C11, divergence: on the property-post-reply topic the payload
`{"id": "1", "code": "200"}` makes the handler panic on the type assertion
`code.(float64)`, and so do a `null` code on the event-post-reply topic and a boolean
code on the pack-post-reply topic.  On an unmatched topic the handler returns with the
device unchanged and nothing published; on a reply topic it does so exactly when the
payload is not a JSON object, has no `code`, or has a number for `code`, and panics
otherwise. -/
theorem createMessageHandler_reply_assertion_panics :
    createMessageHandler (initDeviceState "dev" ⟨0, 0, 0, 0, 0⟩)
        (getTopic "dev" PropertyPostReplyTopicTemplate)
        (some (JVal.obj [("id", JVal.str "1"), ("code", JVal.str "200")]))
        ⟨true, 0, 0, 0, ⟨0, 0, 0, 0, 0⟩⟩ = none ∧
    createMessageHandler (initDeviceState "dev" ⟨0, 0, 0, 0, 0⟩)
        (getTopic "dev" EventPostReplyTopicTemplate)
        (some (JVal.obj [("code", JVal.null)]))
        ⟨true, 0, 0, 0, ⟨0, 0, 0, 0, 0⟩⟩ = none ∧
    createMessageHandler (initDeviceState "dev" ⟨0, 0, 0, 0, 0⟩)
        (getTopic "dev" PackPostReplyTopicTemplate)
        (some (JVal.obj [("code", JVal.bool true), ("msg", JVal.str "ok")]))
        ⟨true, 0, 0, 0, ⟨0, 0, 0, 0, 0⟩⟩ = none ∧
    (∀ (dev : Device) (topic : String) (payload : Option JVal) (env : HandlerEnv),
      topic ≠ getTopic dev.Name PropertySetTopicTemplate →
      topic ≠ getTopic dev.Name PropertyGetTopicTemplate →
      topic ≠ getTopic dev.Name PropertyPostReplyTopicTemplate →
      topic ≠ getTopic dev.Name EventPostReplyTopicTemplate →
      topic ≠ getTopic dev.Name PackPostReplyTopicTemplate →
      createMessageHandler dev topic payload env = some (dev, [])) ∧
    (∀ (dev : Device) (t : String) (payload : Option JVal) (env : HandlerEnv),
      t ∈ [PropertyPostReplyTopicTemplate, EventPostReplyTopicTemplate,
        PackPostReplyTopicTemplate] →
      (createMessageHandler dev (getTopic dev.Name t) payload env = some (dev, []) ∨
        createMessageHandler dev (getTopic dev.Name t) payload env = none) ∧
      (createMessageHandler dev (getTopic dev.Name t) payload env = none ↔
        ∃ reply code, unmarshalMap payload = some reply ∧
          reply.get? "code" = some code ∧ ∀ n, code ≠ JVal.num n)) := by
  refine ⟨rfl, rfl, rfl, ?_, ?_⟩
  · intro dev topic payload env h1 h2 h3 h4 h5
    simp [createMessageHandler, h1, h2, h3, h4, h5]
  · intro dev t payload env ht
    rw [createMessageHandler_reply dev t payload env ht]
    constructor
    · cases replyBody payload with
      | none => right; rfl
      | some l => left; rfl
    · rw [← replyBody_eq_none_iff]
      cases replyBody payload <;> simp


/-! ## Runner -/

/-- What holds of the runner at every pass of its loop: the period is positive, the
ticker in use has that period, the event ticker has not been stopped, and the last
ticker call is not a stop. -/
theorem sessionStep_invariant (s : Runner) (e : SessionEvent)
    (h : 0 < s.currentInterval ∧ s.tickerPeriod = s.currentInterval ∧
      TimerOp.stopEventTicker ∉ s.ops ∧ ∀ p, s.ops.getLast? ≠ some (TimerOp.stopTicker p)) :
    0 < (sessionStep s e).1.currentInterval ∧
    (sessionStep s e).1.tickerPeriod = (sessionStep s e).1.currentInterval ∧
    TimerOp.stopEventTicker ∉ (sessionStep s e).1.ops ∧
    ∀ p, (sessionStep s e).1.ops.getLast? ≠ some (TimerOp.stopTicker p) := by
  cases e with
  | stopSignal => exact h
  | runner ev =>
    cases ev with
    | tick connected d nowMs rTemp rCsq => exact h
    | eventTick connected d nowMs nowSec rAlarm => exact h
    | control v =>
      simp only [sessionStep, runnerStep]
      split_ifs with hv
      · refine ⟨hv.1, rfl, ?_, ?_⟩
        · simp only [List.mem_append, List.mem_cons, List.mem_singleton, List.not_mem_nil,
            or_false, not_or]
          exact ⟨h.2.2.1, by simp, by simp⟩
        · intro p
          simp
      · exact h

theorem sessionRun_invariant (s : Runner) (events : List SessionEvent)
    (h : 0 < s.currentInterval ∧ s.tickerPeriod = s.currentInterval ∧
      TimerOp.stopEventTicker ∉ s.ops ∧ ∀ p, s.ops.getLast? ≠ some (TimerOp.stopTicker p)) :
    0 < (sessionRun s events).1.currentInterval ∧
    (sessionRun s events).1.tickerPeriod = (sessionRun s events).1.currentInterval ∧
    TimerOp.stopEventTicker ∉ (sessionRun s events).1.ops ∧
    ∀ p, (sessionRun s events).1.ops.getLast? ≠ some (TimerOp.stopTicker p) := by
  induction events generalizing s with
  | nil => exact h
  | cons e rest ih => exact ih (sessionStep s e).1 (sessionStep_invariant s e h)

theorem runRunnerStart_init (deviceName : String) (r : StaticRand) :
    runRunnerStart (initDeviceState deviceName r)
      = some { currentInterval := 10, tickerPeriod := 10,
               ops := [TimerOp.newTicker 10, TimerOp.newEventTicker] } := rfl

/-- C12, divergence: `runRunner` takes no transition on the stop signal.  The signal
leaves the runner as it is; after any sequence of events from the start, stop signals
included, the event ticker has not been stopped and the last ticker call is not a
stop; and a property-timer firing that follows the stop signal while the client is
still connected publishes a partial property report. -/
theorem runRunner_ignores_stop :
    (∀ s : Runner, sessionStep s SessionEvent.stopSignal = (s, [])) ∧
    (∀ (deviceName : String) (r : StaticRand) (events : List SessionEvent),
      ∃ s0, runRunnerStart (initDeviceState deviceName r) = some s0 ∧
        TimerOp.stopEventTicker ∉ (sessionRun s0 events).1.ops ∧
        ∀ p, (sessionRun s0 events).1.ops.getLast? ≠ some (TimerOp.stopTicker p)) ∧
    (sessionRun
        { currentInterval := 10, tickerPeriod := 10,
          ops := [TimerOp.newTicker 10, TimerOp.newEventTicker] }
        [SessionEvent.stopSignal,
         SessionEvent.runner (RunnerEvent.tick true
           (initDeviceState "dev" ⟨0, 0, 0, 0, 0⟩) 1000 3 4)]).2
      = [postDeviceProperty (initDeviceState "dev" ⟨0, 0, 0, 0, 0⟩) false 1000 3 4] ∧
    (sessionRun
        { currentInterval := 10, tickerPeriod := 10,
          ops := [TimerOp.newTicker 10, TimerOp.newEventTicker] }
        [SessionEvent.stopSignal,
         SessionEvent.runner (RunnerEvent.tick true
           (initDeviceState "dev" ⟨0, 0, 0, 0, 0⟩) 1000 3 4)]).1.ops
      = [TimerOp.newTicker 10, TimerOp.newEventTicker] := by
  refine ⟨fun _ => rfl, ?_, rfl, rfl⟩
  intro deviceName r events
  refine ⟨_, runRunnerStart_init deviceName r, ?_⟩
  have h := sessionRun_invariant
    { currentInterval := 10, tickerPeriod := 10,
      ops := [TimerOp.newTicker 10, TimerOp.newEventTicker] } events
    ⟨by decide, rfl, by decide, by intro p; simp⟩
  exact h.2.2

/-- C13: on a value `v` received from the interval-change channel with `v > 0` and
`v` different from the current period, the runner stops the old property ticker, makes
a new one of period `v` and takes `v` as current period; on any other value it
changes nothing.  A firing of the property or of the event ticker changes nothing
either and publishes, a partial property report or one event report, only when the
client is connected.  Started on a device just initialised, the runner has period 10,
and after any sequence of events its period is positive and is that of its ticker. -/
theorem runnerStep_period :
    (∀ (s : Runner) (v : Int), 0 < v → v ≠ s.currentInterval →
      runnerStep s (RunnerEvent.control v) =
        ({ currentInterval := v, tickerPeriod := v,
           ops := s.ops ++ [TimerOp.stopTicker s.tickerPeriod, TimerOp.newTicker v] }, [])) ∧
    (∀ (s : Runner) (v : Int), ¬ (0 < v ∧ v ≠ s.currentInterval) →
      runnerStep s (RunnerEvent.control v) = (s, [])) ∧
    (∀ (s : Runner) (connected : Bool) (d : Device) (nowMs : Int) (rTemp rCsq : Nat),
      runnerStep s (RunnerEvent.tick connected d nowMs rTemp rCsq) =
        (s, if connected then [postDeviceProperty d false nowMs rTemp rCsq] else [])) ∧
    (∀ (s : Runner) (connected : Bool) (d : Device) (nowMs nowSec : Int) (rAlarm : Nat),
      runnerStep s (RunnerEvent.eventTick connected d nowMs nowSec rAlarm) =
        (s, if connected then
              [postDeviceEvent d "alarm" CurrentEventFormat nowMs nowSec rAlarm]
            else [])) ∧
    (∀ (deviceName : String) (r : StaticRand) (events : List RunnerEvent),
      ∃ s0, runRunnerStart (initDeviceState deviceName r) = some s0 ∧
        s0.currentInterval = 10 ∧
        0 < (runnerRun s0 events).1.currentInterval ∧
        (runnerRun s0 events).1.tickerPeriod = (runnerRun s0 events).1.currentInterval) := by
  refine ⟨?_, ?_, fun _ _ _ _ _ _ => rfl, fun _ _ _ _ _ _ => rfl, ?_⟩
  · intro s v h1 h2
    simp [runnerStep, h1, h2]
  · intro s v h
    simp only [runnerStep, h, if_false]
  · intro deviceName r events
    refine ⟨_, runRunnerStart_init deviceName r, rfl, ?_⟩
    have h := sessionRun_invariant
      { currentInterval := 10, tickerPeriod := 10,
        ops := [TimerOp.newTicker 10, TimerOp.newEventTicker] }
      (events.map SessionEvent.runner)
      ⟨by decide, rfl, by decide, by intro p; simp⟩
    exact ⟨h.1, h.2.1⟩

end OneNET
